import Mathlib

/-!
# rabbitmq-mv: relay of messages from a source queue to a destination queue

A shallow embedding of `main.go`.  The program talks to two AMQP brokers; every
call into the AMQP client library, every channel receive of the `select`
statement and every log line is recorded in a trace of `Call`s, and every
answer the outside world gives (an error or not, a queue depth, which `select`
case fires next) is an explicit input.

Go `string` is modelled by `String`, Go `int` by `Int` with the 64-bit
two's-complement wrap-around `wrapInt` applied where the program does
arithmetic (`counter++`), and a Go `error` by `Option GoError` (`none` is `nil`).
-/

namespace RabbitmqMv

/-! ## Values of the Go runtime and of the AMQP client library -/

/-- An argument of a format string (`%s` or `%d`). -/
inductive Arg where
  | str (s : String)
  | int (n : Int)
  deriving DecidableEq, Repr

/-- A Go `error` value: one made by `errors.New` or handed out by the AMQP
client library (`mk`), or one made by `errors.Wrapf(cause, format, args...)`. -/
inductive GoError where
  | mk (msg : String)
  | wrapf (cause : GoError) (format : String) (args : List Arg)
  deriving DecidableEq, Repr

/-- Go `int` on the 64-bit targets: the value of an integer expression after
two's-complement wrap-around. -/
def wrapInt (x : Int) : Int := (x + 2 ^ 63) % 2 ^ 64 - 2 ^ 63

/-- The values a Go `int` can hold. -/
def IsInt64 (x : Int) : Prop := -(2 ^ 63) ≤ x ∧ x < 2 ^ 63

instance (x : Int) : Decidable (IsInt64 x) := by unfold IsInt64; infer_instance

/-- Modelled from the spec: the library type `amqp.Delivery` (section 3,
RelayedMessage): the body, the thirteen metadata fields the relay copies and
the delivery tag, which is the acknowledgment handle.  Bytes and the unsigned
integers are naturals, the header table is an association list, the timestamp
is a number; the program only copies these values. -/
structure Delivery where
  Body : List Nat
  Headers : List (String × String)
  ContentType : String
  ContentEncoding : String
  DeliveryMode : Nat
  Priority : Nat
  CorrelationId : String
  ReplyTo : String
  Expiration : String
  MessageId : String
  Timestamp : Int
  Type_ : String
  UserId : String
  AppId : String
  DeliveryTag : Nat
  deriving DecidableEq, Repr

/-- Modelled from the spec: the library type `amqp.Publishing`, with the
fourteen fields that `move` fills in. -/
structure Publishing where
  Body : List Nat
  Headers : List (String × String)
  ContentType : String
  ContentEncoding : String
  DeliveryMode : Nat
  Priority : Nat
  CorrelationId : String
  ReplyTo : String
  Expiration : String
  MessageId : String
  Timestamp : Int
  Type_ : String
  UserId : String
  AppId : String
  deriving DecidableEq, Repr

/-- Modelled from the spec: the library type `amqp.Queue` as far as `Run`
reads it, the message count of the queue (section 4.3). -/
structure Queue where
  Messages : Int
  deriving DecidableEq, Repr

/-! ## The command -/

/-- One end of the move: the anonymous structs `Source` and `Destination`. -/
structure Endpoint where
  URI : String
  Queue : String
  deriving DecidableEq, Repr

/-- The struct `moveCommand`. -/
structure moveCommand where
  Source : Endpoint
  Destination : Endpoint
  Limit : Int
  Tx : Bool
  deriving DecidableEq, Repr

/-- The package-level flag variables, after `flag.Parse`. -/
structure Flags where
  srcURI : String
  srcQueue : String
  dstURI : String
  dstQueue : String
  limit : Int
  tx : Bool
  deriving DecidableEq, Repr

/-- The method `(*moveCommand).Validate`: `none` is the `nil` error. -/
def moveCommand.Validate (s : moveCommand) : Option GoError :=
  if s.Source.URI = "" then
    some (.mk "Source URI must not be empty")
  else if s.Source.Queue = "" then
    some (.mk "Source Queue must not be empty")
  else if s.Destination.URI = "" then
    some (.mk "Destination URI must not be empty")
  else if s.Destination.Queue = "" then
    some (.mk "Destination Queue must not be empty")
  else if s.Source.URI = s.Destination.URI ∧ s.Source.Queue = s.Destination.Queue then
    some (.mk "Source and Destination are the same")
  else
    none

/-- The function `newMoveCommand`: the command and the (always `nil`) error. -/
def newMoveCommand (f : Flags) : moveCommand × Option GoError :=
  let c : moveCommand :=
    { Source := { URI := f.srcURI, Queue := f.srcQueue }
      Destination := { URI := f.dstURI, Queue := f.dstQueue }
      Limit := f.limit
      Tx := f.tx }
  let c : moveCommand :=
    if c.Destination.URI = "" then
      { c with Destination := { c.Destination with URI := c.Source.URI } }
    else c
  let c : moveCommand :=
    if c.Source.URI = "" then
      { c with Source := { c.Source with URI := c.Destination.URI } }
    else c
  (c, none)

/-! ## The outside world: calls made, answers received -/

/-- The two connections and the two channels `Run` opens. -/
inductive Handle where
  | consumerConn
  | consumerChannel
  | producerConn
  | producerChannel
  deriving DecidableEq, Repr

/-- The two logrus levels the program uses. -/
inductive Level where
  | info
  | warn
  deriving DecidableEq, Repr

/-- One observable step of the program, with the answer it got: a call into the
AMQP client library, a case of the `select` statement that fired, or a log
line.  The arguments are the ones written in the source, in the same order. -/
inductive Call where
  | dial (uri : String) (err : Option GoError)
  | channel (h : Handle) (err : Option GoError)
  | queueDeclarePassive (h : Handle) (name : String)
      (durable autoDelete exclusive noWait : Bool) (res : Except GoError Queue)
  | consume (queue consumer : String) (autoAck exclusive noLocal noWait : Bool)
      (err : Option GoError)
  | tx (err : Option GoError)
  | recv (d : Delivery)
  | publish (exchange key : String) (mandatory immediate : Bool) (msg : Publishing)
      (err : Option GoError)
  | txCommit (err : Option GoError)
  | ack (tag : Nat) (multiple : Bool) (err : Option GoError)
  | timeAfter
  | ctxDone
  | logf (level : Level) (format : String) (args : List Arg)
  | close (h : Handle)
  deriving Repr

/-- What the brokers answer to the three calls made for one delivery:
`Publish`, `TxCommit` (asked only in transactional mode) and `Ack`. -/
structure Replies where
  publish : Option GoError
  commit : Option GoError
  ack : Option GoError
  deriving DecidableEq, Repr

/-- The case of the `select` statement that is chosen in one iteration of the
loop: a delivery from `msgs` (with the answers the brokers will give for it),
the one-second timer, or `ctx.Done()`. -/
inductive Event where
  | msg (d : Delivery) (r : Replies)
  | timeout
  | done
  deriving DecidableEq, Repr

/-- How far a run got: still blocked in the `select` (the list of events is
used up), or returned with an error value. -/
inductive Outcome where
  | waiting
  | returned (err : Option GoError)
  deriving DecidableEq, Repr

/-- A run: its outcome, the value of the local variable `counter` (0 when the
loop was never entered) and the calls made, oldest first. -/
structure Result where
  outcome : Outcome
  counter : Int
  trace : List Call
  deriving Repr

/-- The same run, preceded by the calls `pre`. -/
def Result.after (pre : List Call) (r : Result) : Result :=
  { r with trace := pre ++ r.trace }

/-- A `defer h.Close()`: the call is made when the function returns. -/
def Result.defer (h : Handle) (r : Result) : Result :=
  match r.outcome with
  | .waiting => r
  | .returned _ => { r with trace := r.trace ++ [.close h] }

/-! ## The relay loop -/

/-- The literal `amqp.Publishing{...}` of `move`. -/
def toPublishing (d : Delivery) : Publishing :=
  { Body := d.Body
    Headers := d.Headers
    ContentType := d.ContentType
    ContentEncoding := d.ContentEncoding
    DeliveryMode := d.DeliveryMode
    Priority := d.Priority
    CorrelationId := d.CorrelationId
    ReplyTo := d.ReplyTo
    Expiration := d.Expiration
    MessageId := d.MessageId
    Timestamp := d.Timestamp
    Type_ := d.Type_
    UserId := d.UserId
    AppId := d.AppId }

/-- The body of `case d := <-msgs` up to and including the acknowledgment:
the calls made for the delivery `d` and the error returned, if any. -/
def relay (s : moveCommand) (d : Delivery) (r : Replies) : List Call × Option GoError :=
  let pub := Call.publish "" s.Destination.Queue true false (toPublishing d) r.publish
  match r.publish with
  | some err => ([pub], some err)
  | none =>
    if s.Tx then
      match r.commit with
      | some err =>
        ([pub, .txCommit (some err)],
          some (.wrapf err "Cannot commit producer transaction" []))
      | none =>
        match r.ack with
        | some err =>
          ([pub, .txCommit none, .ack d.DeliveryTag false (some err)],
            some (.wrapf err "Cannot ack consumer message" []))
        | none => ([pub, .txCommit none, .ack d.DeliveryTag false none], none)
    else
      match r.ack with
      | some err =>
        ([pub, .ack d.DeliveryTag false (some err)],
          some (.wrapf err "Cannot ack consumer message" []))
      | none => ([pub, .ack d.DeliveryTag false none], none)

/-- The log line after the loop. -/
def logMoved (counter : Int) : Call :=
  .logf .info "Moved %d messages " [.int counter]

/-- The loop labelled `consumeLoop` in `move`, together with the log line that
follows it, run from the given value of `counter` on the given sequence of
`select` choices. -/
def consumeLoop (s : moveCommand) (limit : Int) : Int → List Event → Result
  | counter, [] => ⟨.waiting, counter, []⟩
  | counter, .msg d r :: rest =>
    match relay s d r with
    | (calls, some err) => ⟨.returned (some err), counter, .recv d :: calls⟩
    | (calls, none) =>
      let counter := wrapInt (counter + 1)
      if limit ≥ 0 ∧ counter ≥ limit then
        ⟨.returned none, counter, .recv d :: calls ++ [logMoved counter]⟩
      else
        (consumeLoop s limit counter rest).after (.recv d :: calls)
  | counter, .timeout :: rest =>
    if limit ≥ 0 then
      ⟨.returned none, counter, [.timeAfter, logMoved counter]⟩
    else
      (consumeLoop s limit counter rest).after
        [.timeAfter, .logf .info "Moved so far %d messages " [.int counter]]
  | counter, .done :: _ =>
    ⟨.returned none, counter,
      [.ctxDone, .logf .warn "Move interrupted after %d messages " [.int counter],
        logMoved counter]⟩

/-- The method `(*moveCommand).move`.  `consumeErr` and `txErr` are the answers
to `Consume` and to `Tx` (the latter asked only in transactional mode). -/
def moveCommand.move (s : moveCommand) (consumeErr txErr : Option GoError) (limit : Int)
    (events : List Event) : Result :=
  let consume := Call.consume s.Source.Queue "rabbitmq-mv" false false false false consumeErr
  match consumeErr with
  | some err =>
    ⟨.returned (some (.wrapf err "Cannot consume from queue \x27%s\x27" [.str s.Source.Queue])),
      0, [consume]⟩
  | none =>
    if s.Tx then
      match txErr with
      | some err =>
        ⟨.returned (some (.wrapf err "Cannot open producer transaction" [])), 0,
          [consume, .tx (some err)]⟩
      | none => (consumeLoop s limit 0 events).after [consume, .tx none]
    else
      (consumeLoop s limit 0 events).after [consume]

/-- The calls `move` makes before the loop when they succeed: `Consume`, and
`Tx` in transactional mode. -/
def moveSetup (s : moveCommand) : List Call :=
  if s.Tx then
    [.consume s.Source.Queue "rabbitmq-mv" false false false false none, .tx none]
  else
    [.consume s.Source.Queue "rabbitmq-mv" false false false false none]

/-! ## The session -/

/-- Everything the outside world answers during one call of `Run`. -/
structure Env where
  consumerDial : Option GoError
  consumerChannel : Option GoError
  producerDial : Option GoError
  producerChannel : Option GoError
  consumerQueue : Except GoError Queue
  producerQueue : Except GoError Queue
  consume : Option GoError
  tx : Option GoError
  events : List Event

/-- The two log lines of `Run` on the depths of the queues. -/
def depthLogs (s : moveCommand) (consumerQueue producerQueue : Queue) : List Call :=
  [.logf .info "Number of messages in consumer queue %s: %d"
      [.str s.Source.Queue, .int consumerQueue.Messages],
    .logf .info "Number of messages in producer queue %s: %d"
      [.str s.Destination.Queue, .int producerQueue.Messages]]

/-- The end of `Run`, from the two log lines on queue depths on: the
short-circuit on an empty source queue, the computation of the limit handed to
`move`, and the call of `move`. -/
def runFrom (s : moveCommand) (env : Env) (consumerQueue producerQueue : Queue) : Result :=
  if consumerQueue.Messages = 0 ∧ s.Limit ≥ 0 then
    ⟨.returned none, 0,
      depthLogs s consumerQueue producerQueue ++ [.logf .info "Consumer queue is empty" []]⟩
  else
    let limit := if s.Limit = 0 then consumerQueue.Messages else s.Limit
    (s.move env.consume env.tx limit env.events).after
      (depthLogs s consumerQueue producerQueue ++
        [.logf .info "Moving messages from %s to %s with limit %d"
          [.str s.Source.Queue, .str s.Destination.Queue, .int limit]])

/-- The method `(*moveCommand).Run`. -/
def moveCommand.Run (s : moveCommand) (env : Env) : Result :=
  match s.Validate with
  | some err => ⟨.returned (some err), 0, []⟩
  | none =>
  match env.consumerDial with
  | some err =>
    ⟨.returned (some (.wrapf err "Cannot connect consumer to \x27%s\x27" [.str s.Source.URI])),
      0, [.dial s.Source.URI (some err)]⟩
  | none =>
  Result.after [.dial s.Source.URI none] <| Result.defer .consumerConn <|
  match env.consumerChannel with
  | some err =>
    ⟨.returned (some (.wrapf err "Cannot create consumer channel" [])), 0,
      [.channel .consumerConn (some err)]⟩
  | none =>
  Result.after [.channel .consumerConn none] <| Result.defer .consumerChannel <|
  match env.producerDial with
  | some err =>
    ⟨.returned
        (some (.wrapf err "Cannot connect producer to \x27%s\x27" [.str s.Destination.URI])),
      0, [.dial s.Destination.URI (some err)]⟩
  | none =>
  Result.after [.dial s.Destination.URI none] <| Result.defer .producerConn <|
  match env.producerChannel with
  | some err =>
    ⟨.returned (some (.wrapf err "Cannot create producer channel" [])), 0,
      [.channel .producerConn (some err)]⟩
  | none =>
  Result.after [.channel .producerConn none] <| Result.defer .producerChannel <|
  match env.consumerQueue with
  | .error err =>
    ⟨.returned
        (some (.wrapf err "Cannot describe consumer queue \x27%s\x27" [.str s.Source.Queue])),
      0, [.queueDeclarePassive .consumerChannel s.Source.Queue true false false false
            (.error err)]⟩
  | .ok consumerQueue =>
  Result.after
    [.queueDeclarePassive .consumerChannel s.Source.Queue true false false false
      (.ok consumerQueue)] <|
  match env.producerQueue with
  | .error err =>
    ⟨.returned
        (some (.wrapf err "Cannot describe producer queue \x27%s\x27"
          [.str s.Destination.Queue])),
      0, [.queueDeclarePassive .producerChannel s.Destination.Queue true false false false
            (.error err)]⟩
  | .ok producerQueue =>
  Result.after
    [.queueDeclarePassive .producerChannel s.Destination.Queue true false false false
      (.ok producerQueue)] <|
  runFrom s env consumerQueue producerQueue

/-- The calls `Run` makes up to and including the two queue inspections, when
all of them succeed. -/
def setupCalls (s : moveCommand) (consumerQueue producerQueue : Queue) : List Call :=
  [.dial s.Source.URI none, .channel .consumerConn none, .dial s.Destination.URI none,
    .channel .producerConn none,
    .queueDeclarePassive .consumerChannel s.Source.Queue true false false false
      (.ok consumerQueue),
    .queueDeclarePassive .producerChannel s.Destination.Queue true false false false
      (.ok producerQueue)]

/-- The four deferred `Close` calls of `Run`, last deferred first. -/
def Result.deferAll (r : Result) : Result :=
  Result.defer .consumerConn (Result.defer .consumerChannel
    (Result.defer .producerConn (Result.defer .producerChannel r)))

/-! ## Reading a trace -/

/-- The deliveries taken from the source stream, in order. -/
def received : List Call → List Delivery
  | [] => []
  | .recv d :: t => d :: received t
  | _ :: t => received t

/-- The messages handed to `Publish`, in order. -/
def publishings : List Call → List Publishing
  | [] => []
  | .publish _ _ _ _ m _ :: t => m :: publishings t
  | _ :: t => publishings t

/-- The delivery tags handed to `Ack`, in order. -/
def ackTags : List Call → List Nat
  | [] => []
  | .ack tag _ _ :: t => tag :: ackTags t
  | _ :: t => ackTags t

/-- The number of acknowledgments that succeeded: the messages fully relayed. -/
def relayedCount : List Call → Nat
  | [] => 0
  | .ack _ _ none :: t => relayedCount t + 1
  | _ :: t => relayedCount t

/-- Whether a trace contains a `Consume` call: consumption was started. -/
def consuming : List Call → Bool
  | [] => false
  | .consume _ _ _ _ _ _ _ :: _ => true
  | _ :: t => consuming t

/-- No `Publish`, `TxCommit` or `Ack` of the trace was answered with an error. -/
def relayCallsSucceed : List Call → Bool
  | [] => true
  | .publish _ _ _ _ _ (some _) :: _ => false
  | .txCommit (some _) :: _ => false
  | .ack _ _ (some _) :: _ => false
  | _ :: t => relayCallsSucceed t

/-- Every `Publish` of the trace goes to the default exchange with routing key
`queue`, mandatory and not immediate. -/
def publishesTo (queue : String) : List Call → Bool
  | [] => true
  | .publish exchange key mandatory immediate _ _ :: t =>
    exchange == "" && key == queue && mandatory && !immediate && publishesTo queue t
  | _ :: t => publishesTo queue t

/-- What is known, at a point of a trace, about the delivery last taken from
the source: nothing usable, received, published with success, or published
and committed with success. -/
inductive Pending where
  | nothing
  | received (d : Delivery)
  | published (d : Delivery)
  | committed (d : Delivery)
  deriving DecidableEq, Repr

/-- The acknowledgment discipline, as a monitor that reads a trace from left
to right.  An `Ack` is accepted only for the tag of the delivery last received,
only when the `Publish` of that very delivery has succeeded and, in
transactional mode, the `TxCommit` after it has succeeded too, and only once:
after an `Ack` nothing is pending until the next delivery. -/
def ackDiscipline (tx : Bool) : Pending → List Call → Bool
  | _, [] => true
  | _, .recv d :: t => ackDiscipline tx (.received d) t
  | .received d, .publish _ _ _ _ m none :: t =>
    if m = toPublishing d then ackDiscipline tx (.published d) t
    else ackDiscipline tx .nothing t
  | _, .publish _ _ _ _ _ _ :: t => ackDiscipline tx .nothing t
  | .published d, .txCommit none :: t => ackDiscipline tx (.committed d) t
  | _, .txCommit _ :: t => ackDiscipline tx .nothing t
  | p, .ack tag _ _ :: t =>
    (match p with
      | .published d => !tx && tag == d.DeliveryTag
      | .committed d => tx && tag == d.DeliveryTag
      | _ => false) && ackDiscipline tx .nothing t
  | p, _ :: t => ackDiscipline tx p t

/-- The deliveries the source stream offers, in order. -/
def deliveries : List Event → List Delivery
  | [] => []
  | .msg d _ :: t => d :: deliveries t
  | _ :: t => deliveries t

/-- A delivery for which every call the loop makes succeeds. -/
def Event.relayed (tx : Bool) : Event → Bool
  | .msg _ r => r.publish.isNone && (!tx || r.commit.isNone) && r.ack.isNone
  | _ => false

/-! ## Concrete inputs -/

/-- A delivery with every metadata field filled in and the given tag. -/
def sampleDelivery (tag : Nat) : Delivery :=
  { Body := [104, 105]
    Headers := [("k", "v")]
    ContentType := "text/plain"
    ContentEncoding := "utf-8"
    DeliveryMode := 2
    Priority := 5
    CorrelationId := "cid"
    ReplyTo := "rt"
    Expiration := "60"
    MessageId := "mid"
    Timestamp := 17
    Type_ := "ty"
    UserId := "uid"
    AppId := "app"
    DeliveryTag := tag }

/-- Every call for the delivery succeeds. -/
def allOk : Replies := { publish := none, commit := none, ack := none }

/-- The `Publish` for the delivery fails with the library error `e`. -/
def publishFails (e : GoError) : Replies := { publish := some e, commit := none, ack := none }

/-- The `TxCommit` for the delivery fails with the library error `e`. -/
def commitFails (e : GoError) : Replies := { publish := none, commit := some e, ack := none }

/-- The `Ack` for the delivery fails with the library error `e`. -/
def ackFails (e : GoError) : Replies := { publish := none, commit := none, ack := some e }

/-- A move from queue `q1` to queue `q2` of one broker. -/
def sampleCommand (limit : Int) (tx : Bool) : moveCommand :=
  { Source := { URI := "amqp://a", Queue := "q1" }
    Destination := { URI := "amqp://a", Queue := "q2" }
    Limit := limit
    Tx := tx }

/-- An environment in which every set-up call succeeds, the source queue holds
`depth` messages and the `select` statement makes the given choices. -/
def sampleEnv (depth : Int) (events : List Event) : Env :=
  { consumerDial := none
    consumerChannel := none
    producerDial := none
    producerChannel := none
    consumerQueue := .ok { Messages := depth }
    producerQueue := .ok { Messages := 0 }
    consume := none
    tx := none
    events := events }

/-! ## Lemmas on traces -/

theorem received_append (a b : List Call) : received (a ++ b) = received a ++ received b := by
  induction a with
  | nil => rfl
  | cons c t ih => cases c <;> simp [received, ih]

theorem publishings_append (a b : List Call) :
    publishings (a ++ b) = publishings a ++ publishings b := by
  induction a with
  | nil => rfl
  | cons c t ih => cases c <;> simp [publishings, ih]

theorem ackTags_append (a b : List Call) : ackTags (a ++ b) = ackTags a ++ ackTags b := by
  induction a with
  | nil => rfl
  | cons c t ih => cases c <;> simp [ackTags, ih]

theorem relayedCount_append (a b : List Call) :
    relayedCount (a ++ b) = relayedCount a + relayedCount b := by
  induction a with
  | nil => simp [relayedCount]
  | cons c t ih =>
    cases c with
    | ack tag multiple err =>
      cases err
      · simp [relayedCount, ih]
        omega
      · simp [relayedCount, ih]
    | _ => simp [relayedCount, ih]

theorem publishesTo_append (q : String) (a b : List Call) :
    publishesTo q (a ++ b) = (publishesTo q a && publishesTo q b) := by
  induction a with
  | nil => simp [publishesTo]
  | cons c t ih => cases c <;> simp [publishesTo, ih, Bool.and_assoc]

/-! ## Lemmas on `wrapInt` -/

theorem wrapInt_of_isInt64 {x : Int} (h : IsInt64 x) : wrapInt x = x := by
  unfold IsInt64 at h
  unfold wrapInt
  omega

theorem isInt64_wrapInt (x : Int) : IsInt64 (wrapInt x) := by
  unfold IsInt64 wrapInt
  omega

theorem wrapInt_wrapInt_add (x y : Int) : wrapInt (wrapInt x + y) = wrapInt (x + y) := by
  unfold wrapInt
  omega

theorem wrapInt_le_of_nonneg {x : Int} (h : 0 ≤ x) : wrapInt x ≤ x := by
  unfold wrapInt
  omega

/-! ## Lemmas on one relay -/

/-- The calls made for one delivery: what `relay` returns, case by case. -/
theorem relay_cases (s : moveCommand) (d : Delivery) (r : Replies) :
    let pub (e : Option GoError) := Call.publish "" s.Destination.Queue true false (toPublishing d) e
    (∃ e, r.publish = some e ∧ relay s d r = ([pub (some e)], some e)) ∨
    (∃ e, r.publish = none ∧ s.Tx = true ∧ r.commit = some e ∧
      relay s d r = ([pub none, .txCommit (some e)],
        some (.wrapf e "Cannot commit producer transaction" []))) ∨
    (∃ e, r.publish = none ∧ s.Tx = true ∧ r.commit = none ∧ r.ack = some e ∧
      relay s d r = ([pub none, .txCommit none, .ack d.DeliveryTag false (some e)],
        some (.wrapf e "Cannot ack consumer message" []))) ∨
    (r.publish = none ∧ s.Tx = true ∧ r.commit = none ∧ r.ack = none ∧
      relay s d r = ([pub none, .txCommit none, .ack d.DeliveryTag false none], none)) ∨
    (∃ e, r.publish = none ∧ s.Tx = false ∧ r.ack = some e ∧
      relay s d r = ([pub none, .ack d.DeliveryTag false (some e)],
        some (.wrapf e "Cannot ack consumer message" []))) ∨
    (r.publish = none ∧ s.Tx = false ∧ r.ack = none ∧
      relay s d r = ([pub none, .ack d.DeliveryTag false none], none)) := by
  unfold relay
  rcases hp : r.publish with _ | e <;> rcases ht : s.Tx with _ | _ <;>
    rcases hc : r.commit with _ | e2 <;> rcases ha : r.ack with _ | e3
  all_goals simp

theorem relay_received (s : moveCommand) (d : Delivery) (r : Replies) :
    received (relay s d r).1 = [] := by
  rcases relay_cases s d r with ⟨e, _, h⟩ | ⟨e, _, _, _, h⟩ | ⟨e, _, _, _, _, h⟩ |
    ⟨_, _, _, _, h⟩ | ⟨e, _, _, _, h⟩ | ⟨_, _, _, h⟩ <;> simp [h, received]

theorem relay_publishings (s : moveCommand) (d : Delivery) (r : Replies) :
    publishings (relay s d r).1 = [toPublishing d] := by
  rcases relay_cases s d r with ⟨e, _, h⟩ | ⟨e, _, _, _, h⟩ | ⟨e, _, _, _, _, h⟩ |
    ⟨_, _, _, _, h⟩ | ⟨e, _, _, _, h⟩ | ⟨_, _, _, h⟩ <;> simp [h, publishings]

theorem relay_publishesTo (s : moveCommand) (d : Delivery) (r : Replies) :
    publishesTo s.Destination.Queue (relay s d r).1 = true := by
  rcases relay_cases s d r with ⟨e, _, h⟩ | ⟨e, _, _, _, h⟩ | ⟨e, _, _, _, _, h⟩ |
    ⟨_, _, _, _, h⟩ | ⟨e, _, _, _, h⟩ | ⟨_, _, _, h⟩ <;> simp [h, publishesTo]

theorem relay_ackTags (s : moveCommand) (d : Delivery) (r : Replies) :
    (ackTags (relay s d r).1).Sublist [d.DeliveryTag] := by
  rcases relay_cases s d r with ⟨e, _, h⟩ | ⟨e, _, _, _, h⟩ | ⟨e, _, _, _, _, h⟩ |
    ⟨_, _, _, _, h⟩ | ⟨e, _, _, _, h⟩ | ⟨_, _, _, h⟩ <;> simp [h, ackTags]

theorem relay_relayedCount (s : moveCommand) (d : Delivery) (r : Replies) :
    relayedCount (relay s d r).1 = if (relay s d r).2 = none then 1 else 0 := by
  rcases relay_cases s d r with ⟨e, _, h⟩ | ⟨e, _, _, _, h⟩ | ⟨e, _, _, _, _, h⟩ |
    ⟨_, _, _, _, h⟩ | ⟨e, _, _, _, h⟩ | ⟨_, _, _, h⟩ <;> simp [h, relayedCount]

theorem relay_discipline (s : moveCommand) (d : Delivery) (r : Replies) (p : Pending)
    (t : List Call) :
    ackDiscipline s.Tx p (.recv d :: ((relay s d r).1 ++ t)) =
      ackDiscipline s.Tx .nothing t := by
  rcases relay_cases s d r with ⟨e, _, h⟩ | ⟨e, _, ht, _, h⟩ | ⟨e, _, ht, _, _, h⟩ |
    ⟨_, ht, _, _, h⟩ | ⟨e, _, ht, _, h⟩ | ⟨_, ht, _, h⟩
  all_goals simp [*, ackDiscipline]

theorem relay_of_relayed (s : moveCommand) (d : Delivery) (r : Replies)
    (h : Event.relayed s.Tx (.msg d r) = true) : (relay s d r).2 = none := by
  rcases relay_cases s d r with ⟨e, h1, h⟩ | ⟨e, h1, ht, h2, h⟩ | ⟨e, h1, ht, h2, h3, h⟩ |
    ⟨_, ht, _, _, h⟩ | ⟨e, h1, ht, h3, h⟩ | ⟨_, ht, _, h⟩ <;>
    simp_all [Event.relayed]

/-! ## Lemmas on the loop -/

theorem consumeLoop_msg (s : moveCommand) (limit c : Int) (d : Delivery) (r : Replies)
    (rest : List Event) :
    consumeLoop s limit c (.msg d r :: rest) =
      match (relay s d r).2 with
      | some err => ⟨.returned (some err), c, .recv d :: (relay s d r).1⟩
      | none =>
        if limit ≥ 0 ∧ wrapInt (c + 1) ≥ limit then
          ⟨.returned none, wrapInt (c + 1),
            .recv d :: (relay s d r).1 ++ [logMoved (wrapInt (c + 1))]⟩
        else
          (consumeLoop s limit (wrapInt (c + 1)) rest).after (.recv d :: (relay s d r).1) := by
  rw [consumeLoop]
  rcases relay s d r with ⟨calls, _ | err⟩ <;> rfl

theorem consumeLoop_discipline (s : moveCommand) (limit : Int) (events : List Event) :
    ∀ (c : Int) (p : Pending), ackDiscipline s.Tx p (consumeLoop s limit c events).trace = true := by
  induction events with
  | nil => intro c p; simp [consumeLoop, ackDiscipline]
  | cons e rest ih =>
    intro c p
    cases e with
    | msg d r =>
      rw [consumeLoop_msg]
      rcases h : (relay s d r).2 with _ | err
      · simp only []
        split_ifs
        · simp only [List.cons_append]
          rw [relay_discipline]
          simp [ackDiscipline, logMoved]
        · simp only [Result.after, List.cons_append]
          rw [relay_discipline]
          exact ih _ _
      · have := relay_discipline s d r p []
        simp only [List.append_nil] at this
        simp [this, ackDiscipline]
    | timeout =>
      rw [consumeLoop]
      split_ifs
      · simp [ackDiscipline, logMoved]
      · simpa [Result.after, ackDiscipline] using ih c p
    | done => simp [consumeLoop, ackDiscipline, logMoved]

@[simp]
theorem Result.after_outcome (pre : List Call) (r : Result) :
    (r.after pre).outcome = r.outcome := rfl

@[simp]
theorem Result.after_counter (pre : List Call) (r : Result) :
    (r.after pre).counter = r.counter := rfl

@[simp]
theorem Result.after_trace (pre : List Call) (r : Result) :
    (r.after pre).trace = pre ++ r.trace := rfl

theorem Result.after_nil (r : Result) : r.after [] = r := by
  cases r; simp [Result.after]

theorem Result.after_after (a b : List Call) (r : Result) :
    (r.after a).after b = r.after (b ++ a) := by
  cases r; simp [Result.after]

theorem consumeLoop_msg_fail {s : moveCommand} {d : Delivery} {r : Replies} {err : GoError}
    (h : (relay s d r).2 = some err) (limit c : Int) (rest : List Event) :
    consumeLoop s limit c (.msg d r :: rest) =
      ⟨.returned (some err), c, .recv d :: (relay s d r).1⟩ := by
  rw [consumeLoop_msg, h]

theorem consumeLoop_msg_last {s : moveCommand} {d : Delivery} {r : Replies} {limit c : Int}
    (h : (relay s d r).2 = none) (hl : limit ≥ 0 ∧ wrapInt (c + 1) ≥ limit)
    (rest : List Event) :
    consumeLoop s limit c (.msg d r :: rest) =
      ⟨.returned none, wrapInt (c + 1),
        .recv d :: ((relay s d r).1 ++ [logMoved (wrapInt (c + 1))])⟩ := by
  rw [consumeLoop_msg, h]
  simp [hl]

theorem consumeLoop_msg_next {s : moveCommand} {d : Delivery} {r : Replies} {limit c : Int}
    (h : (relay s d r).2 = none) (hl : ¬(limit ≥ 0 ∧ wrapInt (c + 1) ≥ limit))
    (rest : List Event) :
    consumeLoop s limit c (.msg d r :: rest) =
      (consumeLoop s limit (wrapInt (c + 1)) rest).after (.recv d :: (relay s d r).1) := by
  rw [consumeLoop_msg, h]
  simp only [hl, if_false]

theorem consumeLoop_timeout_bounded {limit : Int} (hl : limit ≥ 0) (s : moveCommand) (c : Int)
    (rest : List Event) :
    consumeLoop s limit c (.timeout :: rest) =
      ⟨.returned none, c, [.timeAfter, logMoved c]⟩ := by
  rw [consumeLoop]
  simp [hl]

theorem consumeLoop_timeout_unlimited {limit : Int} (hl : ¬limit ≥ 0) (s : moveCommand)
    (c : Int) (rest : List Event) :
    consumeLoop s limit c (.timeout :: rest) =
      (consumeLoop s limit c rest).after
        [.timeAfter, .logf .info "Moved so far %d messages " [.int c]] := by
  rw [consumeLoop]
  simp only [hl, if_false]

theorem consumeLoop_done (s : moveCommand) (limit c : Int) (rest : List Event) :
    consumeLoop s limit c (.done :: rest) =
      ⟨.returned none, c,
        [.ctxDone, .logf .warn "Move interrupted after %d messages " [.int c],
          logMoved c]⟩ := by
  rw [consumeLoop]

/-- A loop still waiting after `pre` goes on with `post` from the counter reached. -/
theorem consumeLoop_append_of_waiting (s : moveCommand) (limit : Int) (pre post : List Event) :
    ∀ c : Int, (consumeLoop s limit c pre).outcome = .waiting →
      consumeLoop s limit c (pre ++ post) =
        (consumeLoop s limit (consumeLoop s limit c pre).counter post).after
          (consumeLoop s limit c pre).trace := by
  induction pre with
  | nil => intro c _; simp [consumeLoop, Result.after_nil]
  | cons e rest ih =>
    intro c hw
    rw [List.cons_append]
    cases e with
    | msg d r =>
      rcases h : (relay s d r).2 with _ | err
      · by_cases hl : limit ≥ 0 ∧ wrapInt (c + 1) ≥ limit
        · simp [consumeLoop_msg_last h hl] at hw
        · simp only [consumeLoop_msg_next h hl, Result.after_outcome] at hw ⊢
          rw [ih _ hw]
          simp [Result.after_after]
      · simp [consumeLoop_msg_fail h] at hw
    | timeout =>
      by_cases hl : limit ≥ 0
      · simp [consumeLoop_timeout_bounded hl] at hw
      · simp only [consumeLoop_timeout_unlimited hl, Result.after_outcome] at hw ⊢
        rw [ih _ hw]
        simp [Result.after_after]
    | done => simp [consumeLoop_done] at hw

/-- Once the loop has returned, later events are not consumed. -/
theorem consumeLoop_append_of_returned (s : moveCommand) (limit : Int) (pre post : List Event) :
    ∀ (c : Int) (err : Option GoError), (consumeLoop s limit c pre).outcome = .returned err →
      consumeLoop s limit c (pre ++ post) = consumeLoop s limit c pre := by
  induction pre with
  | nil => intro c err h; simp [consumeLoop] at h
  | cons e rest ih =>
    intro c err hw
    rw [List.cons_append]
    cases e with
    | msg d r =>
      rcases h : (relay s d r).2 with _ | err2
      · by_cases hl : limit ≥ 0 ∧ wrapInt (c + 1) ≥ limit
        · simp only [consumeLoop_msg_last h hl]
        · simp only [consumeLoop_msg_next h hl, Result.after_outcome] at hw ⊢
          rw [ih _ _ hw]
      · simp only [consumeLoop_msg_fail h]
    | timeout =>
      by_cases hl : limit ≥ 0
      · simp only [consumeLoop_timeout_bounded hl]
      · simp only [consumeLoop_timeout_unlimited hl, Result.after_outcome] at hw ⊢
        rw [ih _ _ hw]
    | done => simp only [consumeLoop_done]

theorem relayedCount_relay_ok {s : moveCommand} {d : Delivery} {r : Replies}
    (h : (relay s d r).2 = none) (t : List Call) :
    relayedCount (.recv d :: ((relay s d r).1 ++ t)) = relayedCount t + 1 := by
  have hn := relay_relayedCount s d r
  rw [h] at hn
  simp [relayedCount, relayedCount_append, hn]
  omega

theorem consumeLoop_counter_wrap (s : moveCommand) (limit : Int) (events : List Event) :
    ∀ c : Int, IsInt64 c →
      (consumeLoop s limit c events).counter =
        wrapInt (c + relayedCount (consumeLoop s limit c events).trace) := by
  induction events with
  | nil => intro c hc; simp [consumeLoop, relayedCount, wrapInt_of_isInt64 hc]
  | cons e rest ih =>
    intro c hc
    cases e with
    | msg d r =>
      have hn := relay_relayedCount s d r
      rcases h : (relay s d r).2 with _ | err
      · rw [h] at hn
        by_cases hl : limit ≥ 0 ∧ wrapInt (c + 1) ≥ limit
        · simp [consumeLoop_msg_last h hl, relayedCount, relayedCount_append, hn, logMoved]
        · simp only [consumeLoop_msg_next h hl, Result.after_counter, Result.after_trace]
          rw [ih _ (isInt64_wrapInt _), wrapInt_wrapInt_add, List.cons_append,
            relayedCount_relay_ok h]
          congr 1
          push_cast
          omega
      · rw [h] at hn
        simp [consumeLoop_msg_fail h, relayedCount, hn, wrapInt_of_isInt64 hc]
    | timeout =>
      by_cases hl : limit ≥ 0
      · simp [consumeLoop_timeout_bounded hl, relayedCount, logMoved, wrapInt_of_isInt64 hc]
      · simp only [consumeLoop_timeout_unlimited hl, Result.after_counter, Result.after_trace]
        rw [ih _ hc]
        simp [relayedCount]
    | done => simp [consumeLoop_done, relayedCount, logMoved, wrapInt_of_isInt64 hc]

theorem consumeLoop_counter_bounded (s : moveCommand) {limit : Int} (hpos : 0 < limit)
    (hmax : limit < 2 ^ 63) (events : List Event) :
    ∀ c : Int, 0 ≤ c → c < limit →
      (consumeLoop s limit c events).counter =
          c + relayedCount (consumeLoop s limit c events).trace ∧
        (consumeLoop s limit c events).counter ≤ limit := by
  induction events with
  | nil => intro c h0 h1; simp [consumeLoop, relayedCount]; omega
  | cons e rest ih =>
    intro c h0 h1
    have hw : wrapInt (c + 1) = c + 1 := wrapInt_of_isInt64 (by unfold IsInt64; omega)
    cases e with
    | msg d r =>
      have hn := relay_relayedCount s d r
      rcases h : (relay s d r).2 with _ | err
      · rw [h] at hn
        by_cases hl : limit ≥ 0 ∧ wrapInt (c + 1) ≥ limit
        · simp only [consumeLoop_msg_last h hl, hw, relayedCount, relayedCount_append, hn,
            logMoved]
          simp
          omega
        · simp only [consumeLoop_msg_next h hl, Result.after_counter, Result.after_trace]
          rw [hw] at hl ⊢
          obtain ⟨h2, h3⟩ := ih (c + 1) (by omega) (by omega)
          refine ⟨?_, h3⟩
          rw [h2, List.cons_append, relayedCount_relay_ok h]
          push_cast
          omega
      · rw [h] at hn
        simp [consumeLoop_msg_fail h, relayedCount, hn]
        omega
    | timeout =>
      simp [consumeLoop_timeout_bounded (le_of_lt hpos), relayedCount, logMoved]
      omega
    | done =>
      simp [consumeLoop_done, relayedCount, logMoved]
      omega

theorem consumeLoop_relays_exactly (s : moveCommand) {limit : Int} (hmax : limit < 2 ^ 63)
    (good rest : List Event) :
    ∀ c : Int, 0 ≤ c → c + good.length = limit → good ≠ [] →
      (∀ e ∈ good, Event.relayed s.Tx e = true) →
      (consumeLoop s limit c (good ++ rest)).outcome = .returned none ∧
        (consumeLoop s limit c (good ++ rest)).counter = limit ∧
        received (consumeLoop s limit c (good ++ rest)).trace = deliveries good ∧
        relayedCount (consumeLoop s limit c (good ++ rest)).trace = good.length := by
  induction good with
  | nil => intro c _ _ h; exact absurd rfl h
  | cons e good ih =>
    intro c h0 hlen _ hall
    have hw : wrapInt (c + 1) = c + 1 := by
      apply wrapInt_of_isInt64
      simp only [List.length_cons, Nat.cast_add, Nat.cast_one] at hlen
      unfold IsInt64
      omega
    have he := hall e (List.mem_cons_self _ _)
    cases e with
    | msg d r =>
      have h := relay_of_relayed s d r he
      have hn := relay_relayedCount s d r
      rw [h] at hn
      rw [List.cons_append]
      simp only [List.length_cons, Nat.cast_add, Nat.cast_one] at hlen
      by_cases hg : good = []
      · subst hg
        have hl : limit ≥ 0 ∧ wrapInt (c + 1) ≥ limit := by
          rw [hw]; simp at hlen; omega
        simp only [consumeLoop_msg_last h hl, hw]
        simp [received, received_append, relay_received, relayedCount, relayedCount_append,
          hn, logMoved, deliveries]
        simp at hlen
        omega
      · have hpos : 0 < good.length := List.length_pos.mpr hg
        have hl : ¬(limit ≥ 0 ∧ wrapInt (c + 1) ≥ limit) := by
          rw [hw]; omega
        simp only [consumeLoop_msg_next h hl, Result.after_outcome, Result.after_counter,
          Result.after_trace, hw]
        obtain ⟨h1, h2, h3, h4⟩ :=
          ih (c + 1) (by omega) (by omega) hg (fun e he => hall e (List.mem_cons_of_mem _ he))
        refine ⟨h1, h2, ?_, ?_⟩
        · simp [received, received_append, relay_received, h3, deliveries]
        · simp [relayedCount, relayedCount_append, hn, h4]
          omega
    | timeout => simp [Event.relayed] at he
    | done => simp [Event.relayed] at he

theorem consumeLoop_unlimited_waiting (s : moveCommand) {limit : Int} (hl : limit < 0)
    (events : List Event) :
    ∀ c : Int, (∀ e ∈ events, e = .timeout ∨ Event.relayed s.Tx e = true) →
      (consumeLoop s limit c events).outcome = .waiting := by
  have hneg : ¬limit ≥ 0 := by omega
  induction events with
  | nil => intro c _; simp [consumeLoop]
  | cons e rest ih =>
    intro c hall
    have hrest : ∀ e ∈ rest, e = .timeout ∨ Event.relayed s.Tx e = true :=
      fun e he => hall e (List.mem_cons_of_mem _ he)
    rcases hall e (List.mem_cons_self _ _) with he | he
    · subst he
      simp only [consumeLoop_timeout_unlimited hneg, Result.after_outcome]
      exact ih c hrest
    · cases e with
      | msg d r =>
        have h := relay_of_relayed s d r he
        have hl2 : ¬(limit ≥ 0 ∧ wrapInt (c + 1) ≥ limit) := fun h => hneg h.1
        simp only [consumeLoop_msg_next h hl2, Result.after_outcome]
        exact ih _ hrest
      | timeout => simp [Event.relayed] at he
      | done => simp [Event.relayed] at he

theorem consumeLoop_unlimited_returned (s : moveCommand) {limit : Int} (hl : limit < 0)
    (events : List Event) :
    ∀ c : Int, (consumeLoop s limit c events).outcome = .returned none →
      ∃ pre post, events = pre ++ .done :: post ∧
        ∀ e ∈ pre, e = .timeout ∨ Event.relayed s.Tx e = true := by
  have hneg : ¬limit ≥ 0 := by omega
  induction events with
  | nil => intro c h; simp [consumeLoop] at h
  | cons e rest ih =>
    intro c hret
    cases e with
    | msg d r =>
      rcases h : (relay s d r).2 with _ | err
      · have hl2 : ¬(limit ≥ 0 ∧ wrapInt (c + 1) ≥ limit) := fun h => hneg h.1
        simp only [consumeLoop_msg_next h hl2, Result.after_outcome] at hret
        obtain ⟨pre, post, hev, hall⟩ := ih _ hret
        refine ⟨.msg d r :: pre, post, by simp [hev], ?_⟩
        intro e he
        rcases List.mem_cons.mp he with he | he
        · subst he
          right
          rcases relay_cases s d r with ⟨e, _, h2⟩ | ⟨e, _, _, _, h2⟩ | ⟨e, _, _, _, _, h2⟩ |
            ⟨h1, ht, h3, h4, _⟩ | ⟨e, _, _, _, h2⟩ | ⟨h1, ht, h4, _⟩
          · simp [h2] at h
          · simp [h2] at h
          · simp [h2] at h
          · simp [Event.relayed, h1, ht, h3, h4]
          · simp [h2] at h
          · simp [Event.relayed, h1, ht, h4]
        · exact hall e he
      · simp [consumeLoop_msg_fail h] at hret
    | timeout =>
      simp only [consumeLoop_timeout_unlimited hneg, Result.after_outcome] at hret
      obtain ⟨pre, post, hev, hall⟩ := ih _ hret
      refine ⟨.timeout :: pre, post, by simp [hev], ?_⟩
      intro e he
      rcases List.mem_cons.mp he with he | he
      · exact Or.inl he
      · exact hall e he
    | done => exact ⟨[], rest, rfl, by simp⟩

theorem consumeLoop_trace (s : moveCommand) (limit : Int) (events : List Event) :
    ∀ c : Int,
      publishings (consumeLoop s limit c events).trace =
          (received (consumeLoop s limit c events).trace).map toPublishing ∧
        publishesTo s.Destination.Queue (consumeLoop s limit c events).trace = true ∧
        (ackTags (consumeLoop s limit c events).trace).Sublist
          ((received (consumeLoop s limit c events).trace).map Delivery.DeliveryTag) ∧
        ∃ rest, received (consumeLoop s limit c events).trace ++ rest = deliveries events := by
  induction events with
  | nil => intro c; simp [consumeLoop, publishings, received, publishesTo, ackTags, deliveries]
  | cons e rest ih =>
    intro c
    cases e with
    | msg d r =>
      have ha := relay_ackTags s d r
      rcases h : (relay s d r).2 with _ | err
      · by_cases hl : limit ≥ 0 ∧ wrapInt (c + 1) ≥ limit
        · simp only [consumeLoop_msg_last h hl]
          refine ⟨?_, ?_, ?_, ?_⟩
          · simp [publishings, publishings_append, received, received_append, relay_received,
              relay_publishings, logMoved]
          · simp [publishesTo, publishesTo_append, relay_publishesTo, logMoved]
          · simpa [ackTags, ackTags_append, received, received_append, relay_received,
              logMoved] using ha
          · exact ⟨deliveries rest, by
              simp [received, received_append, relay_received, logMoved, deliveries]⟩
        · simp only [consumeLoop_msg_next h hl, Result.after_trace]
          obtain ⟨h1, h2, h3, tl, h4⟩ := ih (wrapInt (c + 1))
          refine ⟨?_, ?_, ?_, ?_⟩
          · simp [publishings, publishings_append, received, received_append, relay_received,
              relay_publishings, h1]
          · simp [publishesTo, publishesTo_append, relay_publishesTo, h2]
          · have := List.Sublist.append ha h3
            simpa [ackTags, ackTags_append, received, received_append, relay_received] using this
          · exact ⟨tl, by
              simp [received, received_append, relay_received, deliveries, h4]⟩
      · simp only [consumeLoop_msg_fail h]
        refine ⟨?_, ?_, ?_, ?_⟩
        · simp [publishings, received, relay_received, relay_publishings]
        · simp [publishesTo, relay_publishesTo]
        · simpa [ackTags, received, relay_received] using ha
        · exact ⟨deliveries rest, by simp [received, relay_received, deliveries]⟩
    | timeout =>
      by_cases hl : limit ≥ 0
      · simp [consumeLoop_timeout_bounded hl, publishings, received, publishesTo, ackTags,
          logMoved]
      · simp only [consumeLoop_timeout_unlimited hl, Result.after_trace]
        obtain ⟨h1, h2, h3, tl, h4⟩ := ih c
        exact ⟨by simpa [publishings, received] using h1, by simpa [publishesTo] using h2,
          by simpa [ackTags, received] using h3, tl, by simpa [received, deliveries] using h4⟩
    | done =>
      simp [consumeLoop_done, publishings, received, publishesTo, ackTags, logMoved]

/-! ## Lemmas on `move` -/

theorem move_of_waiting {s : moveCommand} {consumeErr txErr : Option GoError} {limit : Int}
    {events : List Event} (hw : (s.move consumeErr txErr limit events).outcome = .waiting) :
    ∀ evs, s.move consumeErr txErr limit evs = (consumeLoop s limit 0 evs).after (moveSetup s) := by
  intro evs
  unfold moveCommand.move moveSetup at *
  rcases consumeErr with _ | e1
  · by_cases ht : s.Tx = true
    · rcases txErr with _ | e2
      · simp [ht]
      · simp [ht] at hw
    · simp [ht]
  · simp at hw

theorem move_discipline (s : moveCommand) (consumeErr txErr : Option GoError) (limit : Int)
    (events : List Event) :
    ackDiscipline s.Tx .nothing (s.move consumeErr txErr limit events).trace = true := by
  unfold moveCommand.move
  rcases consumeErr with _ | e1
  · by_cases ht : s.Tx = true
    · rcases txErr with _ | e2
      · simp only [ht, if_true, Result.after_trace, List.cons_append, List.nil_append,
          ackDiscipline]
        have := consumeLoop_discipline s limit events 0 .nothing
        simpa [ht] using this
      · simp [ht, ackDiscipline]
    · simp only [ht, if_false, Result.after_trace, List.cons_append, List.nil_append,
        ackDiscipline]
      have := consumeLoop_discipline s limit events 0 .nothing
      simpa [ht] using this
  · simp [ackDiscipline]

theorem move_trace (s : moveCommand) (consumeErr txErr : Option GoError) (limit : Int)
    (events : List Event) :
    publishings (s.move consumeErr txErr limit events).trace =
        (received (s.move consumeErr txErr limit events).trace).map toPublishing ∧
      publishesTo s.Destination.Queue (s.move consumeErr txErr limit events).trace = true ∧
      (ackTags (s.move consumeErr txErr limit events).trace).Sublist
        ((received (s.move consumeErr txErr limit events).trace).map Delivery.DeliveryTag) ∧
      ∃ rest, received (s.move consumeErr txErr limit events).trace ++ rest =
        deliveries events := by
  obtain ⟨h1, h2, h3, tl, h4⟩ := consumeLoop_trace s limit events 0
  unfold moveCommand.move
  rcases consumeErr with _ | e1
  · by_cases ht : s.Tx = true
    · rcases txErr with _ | e2
      · simp only [ht, if_true, Result.after_trace, List.cons_append, List.nil_append]
        exact ⟨by simpa [publishings, received] using h1, by simpa [publishesTo] using h2,
          by simpa [ackTags, received] using h3, tl, by simpa [received] using h4⟩
      · simp [ht, publishings, received, publishesTo, ackTags]
    · simp only [ht, if_false, Result.after_trace, List.cons_append, List.nil_append]
      exact ⟨by simpa [publishings, received] using h1, by simpa [publishesTo] using h2,
        by simpa [ackTags, received] using h3, tl, by simpa [received] using h4⟩
  · simp [publishings, received, publishesTo, ackTags]

theorem relayedCount_moveSetup (s : moveCommand) : relayedCount (moveSetup s) = 0 := by
  unfold moveSetup
  split_ifs <;> simp [relayedCount]

theorem move_counter_wrap (s : moveCommand) (consumeErr txErr : Option GoError) (limit : Int)
    (events : List Event) :
    (s.move consumeErr txErr limit events).counter =
      wrapInt (relayedCount (s.move consumeErr txErr limit events).trace) := by
  have h0 : IsInt64 0 := by unfold IsInt64; omega
  have h := consumeLoop_counter_wrap s limit events 0 h0
  have hz : wrapInt 0 = 0 := wrapInt_of_isInt64 h0
  unfold moveCommand.move
  rcases consumeErr with _ | e1
  · by_cases ht : s.Tx = true
    · rcases txErr with _ | e2
      · simpa [ht, relayedCount] using h
      · simp [ht, relayedCount, hz]
    · simpa [ht, relayedCount] using h
  · simp [relayedCount, hz]

theorem move_counter_bounded (s : moveCommand) (consumeErr txErr : Option GoError)
    {limit : Int} (hpos : 0 < limit) (hmax : limit < 2 ^ 63) (events : List Event) :
    (s.move consumeErr txErr limit events).counter =
        relayedCount (s.move consumeErr txErr limit events).trace ∧
      (s.move consumeErr txErr limit events).counter ≤ limit := by
  have h := consumeLoop_counter_bounded s hpos hmax events 0 (le_refl 0) hpos
  unfold moveCommand.move
  rcases consumeErr with _ | e1
  · by_cases ht : s.Tx = true
    · rcases txErr with _ | e2
      · simpa [ht, relayedCount] using h
      · simp [ht, relayedCount]; omega
    · simpa [ht, relayedCount] using h
  · simp [relayedCount]; omega

theorem move_append_of_waiting {s : moveCommand} {consumeErr txErr : Option GoError}
    {limit : Int} {pre : List Event}
    (hw : (s.move consumeErr txErr limit pre).outcome = .waiting) (post : List Event) :
    s.move consumeErr txErr limit (pre ++ post) =
      (consumeLoop s limit (s.move consumeErr txErr limit pre).counter post).after
        (s.move consumeErr txErr limit pre).trace := by
  have hm := move_of_waiting hw
  rw [hm pre] at hw
  rw [hm (pre ++ post), hm pre]
  simp only [Result.after_outcome] at hw
  rw [consumeLoop_append_of_waiting s limit pre post 0 hw]
  simp [Result.after_after]

/-! ## Lemmas on `Run` -/

@[simp]
theorem Result.defer_outcome (h : Handle) (r : Result) :
    (r.defer h).outcome = r.outcome := by
  unfold Result.defer
  split <;> simp_all

@[simp]
theorem Result.defer_counter (h : Handle) (r : Result) :
    (r.defer h).counter = r.counter := by
  unfold Result.defer
  split <;> rfl

theorem Result.defer_after (h : Handle) (pre : List Call) (r : Result) :
    (r.after pre).defer h = (r.defer h).after pre := by
  rcases r with ⟨o, c, t⟩
  cases o <;> simp [Result.defer, Result.after]

theorem relayedCount_defer (h : Handle) (r : Result) :
    relayedCount (r.defer h).trace = relayedCount r.trace := by
  unfold Result.defer
  split
  · rfl
  · simp [relayedCount_append, relayedCount]

theorem received_defer (h : Handle) (r : Result) :
    received (r.defer h).trace = received r.trace := by
  unfold Result.defer
  split
  · rfl
  · simp [received_append, received]

theorem consuming_append (a b : List Call) :
    consuming (a ++ b) = (consuming a || consuming b) := by
  induction a with
  | nil => simp [consuming]
  | cons c t ih => cases c <;> simp [consuming, ih]

theorem consuming_defer (h : Handle) (r : Result) :
    consuming (r.defer h).trace = consuming r.trace := by
  unfold Result.defer
  split
  · rfl
  · simp [consuming_append, consuming]

theorem consuming_move (s : moveCommand) (consumeErr txErr : Option GoError) (limit : Int)
    (events : List Event) : consuming (s.move consumeErr txErr limit events).trace = true := by
  unfold moveCommand.move
  rcases consumeErr with _ | e1
  · by_cases ht : s.Tx = true
    · rcases txErr with _ | e2 <;> simp [ht, consuming]
    · simp [ht, consuming]
  · simp [consuming]

theorem Run_of_setup_ok {s : moveCommand} {env : Env} {cq pq : Queue}
    (hv : s.Validate = none) (h1 : env.consumerDial = none) (h2 : env.consumerChannel = none)
    (h3 : env.producerDial = none) (h4 : env.producerChannel = none)
    (hq1 : env.consumerQueue = .ok cq) (hq2 : env.producerQueue = .ok pq) :
    s.Run env = (Result.deferAll (runFrom s env cq pq)).after (setupCalls s cq pq) := by
  unfold moveCommand.Run Result.deferAll setupCalls
  simp only [hv, h1, h2, h3, h4, hq1, hq2]
  simp [Result.defer_after, Result.after_after]

theorem move_of_setup_ok {s : moveCommand} {txErr : Option GoError}
    (ht : s.Tx = true → txErr = none) (limit : Int) (events : List Event) :
    s.move none txErr limit events = (consumeLoop s limit 0 events).after (moveSetup s) := by
  unfold moveCommand.move moveSetup
  by_cases h : s.Tx = true
  · simp [h, ht h]
  · simp [h]

theorem received_moveSetup (s : moveCommand) : received (moveSetup s) = [] := by
  unfold moveSetup
  split_ifs <;> simp [received]

theorem relayCallsSucceed_append (a b : List Call) :
    relayCallsSucceed (a ++ b) = (relayCallsSucceed a && relayCallsSucceed b) := by
  induction a with
  | nil => simp [relayCallsSucceed]
  | cons c t ih =>
    cases c with
    | publish exchange key mandatory immediate msg err =>
      cases err <;> simp [relayCallsSucceed, ih]
    | txCommit err => cases err <;> simp [relayCallsSucceed, ih]
    | ack tag multiple err => cases err <;> simp [relayCallsSucceed, ih]
    | _ => simp [relayCallsSucceed, ih]

theorem relay_relayCallsSucceed (s : moveCommand) (d : Delivery) (r : Replies) :
    relayCallsSucceed (relay s d r).1 = true ↔ (relay s d r).2 = none := by
  rcases relay_cases s d r with ⟨e, _, h⟩ | ⟨e, _, _, _, h⟩ | ⟨e, _, _, _, _, h⟩ |
    ⟨_, _, _, _, h⟩ | ⟨e, _, _, _, h⟩ | ⟨_, _, _, h⟩ <;> simp [h, relayCallsSucceed]

theorem relayCallsSucceed_defer (h : Handle) (r : Result) :
    relayCallsSucceed (r.defer h).trace = relayCallsSucceed r.trace := by
  unfold Result.defer
  split
  · rfl
  · simp [relayCallsSucceed_append, relayCallsSucceed]

theorem relayCallsSucceed_moveSetup (s : moveCommand) :
    relayCallsSucceed (moveSetup s) = true := by
  unfold moveSetup
  split_ifs <;> simp [relayCallsSucceed]

/-- In a loop with a limit above the counter, when no relay call failed every
delivery received was acknowledged, and when the acknowledged deliveries fill
the limit the loop has returned without error. -/
theorem consumeLoop_exact (s : moveCommand) {limit : Int} (hmax : limit < 2 ^ 63)
    (events : List Event) :
    ∀ c : Int, 0 ≤ c → c < limit →
      (relayCallsSucceed (consumeLoop s limit c events).trace = true →
        relayedCount (consumeLoop s limit c events).trace =
          (received (consumeLoop s limit c events).trace).length) ∧
      ((relayedCount (consumeLoop s limit c events).trace : Int) = limit - c →
        (consumeLoop s limit c events).outcome = .returned none) := by
  induction events with
  | nil =>
    intro c h0 h1
    simp [consumeLoop, relayedCount, received]
    omega
  | cons e rest ih =>
    intro c h0 h1
    have hw : wrapInt (c + 1) = c + 1 := wrapInt_of_isInt64 (by unfold IsInt64; omega)
    cases e with
    | msg d r =>
      rcases h : (relay s d r).2 with _ | err
      · have hn := relay_relayedCount s d r
        rw [h] at hn
        by_cases hl : limit ≥ 0 ∧ wrapInt (c + 1) ≥ limit
        · simp [consumeLoop_msg_last h hl, relayedCount, relayedCount_append, hn, received,
            received_append, relay_received, logMoved]
        · simp only [consumeLoop_msg_next h hl, Result.after_trace, Result.after_outcome,
            List.cons_append]
          rw [hw] at hl ⊢
          obtain ⟨i1, i2⟩ := ih (c + 1) (by omega) (by omega)
          constructor
          · intro hs
            have hs2 : relayCallsSucceed (consumeLoop s limit (c + 1) rest).trace = true := by
              simp [relayCallsSucceed, relayCallsSucceed_append] at hs
              exact hs.2
            rw [relayedCount_relay_ok h, i1 hs2]
            simp [received, received_append, relay_received]
          · intro hc
            apply i2
            rw [relayedCount_relay_ok h] at hc
            push_cast at hc
            omega
      · have hn := relay_relayedCount s d r
        rw [h] at hn
        have hf : relayCallsSucceed (relay s d r).1 = false := by
          rcases hb : relayCallsSucceed (relay s d r).1 with _ | _
          · rfl
          · rw [(relay_relayCallsSucceed s d r).mp hb] at h
            cases h
        simp [consumeLoop_msg_fail h, relayedCount, hn, relayCallsSucceed, hf]
        omega
    | timeout =>
      simp [consumeLoop_timeout_bounded (le_of_lt (lt_of_le_of_lt h0 h1)), relayedCount,
        received, logMoved]
    | done => simp [consumeLoop_done, relayedCount, received, logMoved]

theorem move_exact (s : moveCommand) (consumeErr txErr : Option GoError) {limit : Int}
    (hpos : 0 < limit) (hmax : limit < 2 ^ 63) (events : List Event) :
    (relayCallsSucceed (s.move consumeErr txErr limit events).trace = true →
      relayedCount (s.move consumeErr txErr limit events).trace =
        (received (s.move consumeErr txErr limit events).trace).length) ∧
    ((relayedCount (s.move consumeErr txErr limit events).trace : Int) = limit →
      (s.move consumeErr txErr limit events).outcome = .returned none) := by
  obtain ⟨h1, h2⟩ := consumeLoop_exact s hmax events 0 (le_refl 0) hpos
  simp only [sub_zero] at h2
  unfold moveCommand.move
  rcases consumeErr with _ | e1
  · by_cases ht : s.Tx = true
    · rcases txErr with _ | e2
      · simpa [ht, relayedCount, received, relayCallsSucceed] using And.intro h1 h2
      · simp [ht, relayedCount, received]
        omega
    · simpa [ht, relayedCount, received, relayCallsSucceed] using And.intro h1 h2
  · simp [relayedCount, received]
    omega

/-- What `Run` leaves of a run of `move` that it wraps in its set-up calls, log
lines and deferred `Close` calls. -/
theorem wrapped_move (s : moveCommand) (cq pq : Queue) (line : Call)
    (hline : ∃ level format args, line = .logf level format args) (r : Result) :
    ((Result.deferAll (r.after (depthLogs s cq pq ++ [line]))).after
        (setupCalls s cq pq)).outcome = r.outcome ∧
    ((Result.deferAll (r.after (depthLogs s cq pq ++ [line]))).after
        (setupCalls s cq pq)).counter = r.counter ∧
    relayedCount ((Result.deferAll (r.after (depthLogs s cq pq ++ [line]))).after
        (setupCalls s cq pq)).trace = relayedCount r.trace ∧
    received ((Result.deferAll (r.after (depthLogs s cq pq ++ [line]))).after
        (setupCalls s cq pq)).trace = received r.trace ∧
    relayCallsSucceed ((Result.deferAll (r.after (depthLogs s cq pq ++ [line]))).after
        (setupCalls s cq pq)).trace = relayCallsSucceed r.trace := by
  obtain ⟨level, format, args, rfl⟩ := hline
  refine ⟨?_, ?_, ?_, ?_, ?_⟩
  · simp [Result.deferAll]
  · simp [Result.deferAll]
  · simp [Result.deferAll, relayedCount_defer, relayedCount_append, relayedCount, setupCalls,
      depthLogs]
  · simp [Result.deferAll, received_defer, received_append, received, setupCalls, depthLogs]
  · simp [Result.deferAll, relayCallsSucceed_defer, relayCallsSucceed_append,
      relayCallsSucceed, setupCalls, depthLogs]

/-- The two ways a call of `Run` goes: it ends before the loop (validation or
set-up failed, or the source queue was empty and the limit at least 0) with
nothing consumed, or it calls `move` with the limit computed from the depth. -/
theorem Run_shape (s : moveCommand) (env : Env) :
    ((s.Run env).counter = 0 ∧ relayedCount (s.Run env).trace = 0 ∧
      received (s.Run env).trace = [] ∧ consuming (s.Run env).trace = false ∧
      ∃ err, (s.Run env).outcome = .returned err) ∨
    ∃ cq pq : Queue, env.consumerQueue = .ok cq ∧ ¬(cq.Messages = 0 ∧ s.Limit ≥ 0) ∧
      s.Run env =
        (Result.deferAll
          ((s.move env.consume env.tx (if s.Limit = 0 then cq.Messages else s.Limit)
              env.events).after
            (depthLogs s cq pq ++
              [.logf .info "Moving messages from %s to %s with limit %d"
                [.str s.Source.Queue, .str s.Destination.Queue,
                  .int (if s.Limit = 0 then cq.Messages else s.Limit)]]))).after
          (setupCalls s cq pq) := by
  rcases hv : s.Validate with _ | e
  · rcases h1 : env.consumerDial with _ | e
    · rcases h2 : env.consumerChannel with _ | e
      · rcases h3 : env.producerDial with _ | e
        · rcases h4 : env.producerChannel with _ | e
          · rcases hq1 : env.consumerQueue with e | cq
            · left
              simp [moveCommand.Run, hv, h1, h2, h3, h4, hq1, relayedCount_defer,
                relayedCount, received_defer, received, consuming_defer, consuming]
            · rcases hq2 : env.producerQueue with e | pq
              · left
                simp [moveCommand.Run, hv, h1, h2, h3, h4, hq1, hq2, relayedCount_defer,
                  relayedCount, received_defer, received, consuming_defer, consuming]
              · rw [Run_of_setup_ok hv h1 h2 h3 h4 hq1 hq2]
                by_cases hs : cq.Messages = 0 ∧ s.Limit ≥ 0
                · left
                  simp [runFrom, hs, Result.deferAll, relayedCount_defer, relayedCount_append,
                    relayedCount, received_defer, received_append, received, consuming_defer,
                    consuming_append, consuming, setupCalls, depthLogs]
                · right
                  refine ⟨cq, pq, rfl, hs, ?_⟩
                  simp only [runFrom, hs, if_false]
          · left
            simp [moveCommand.Run, hv, h1, h2, h3, h4, relayedCount_defer, relayedCount,
              received_defer, received, consuming_defer, consuming]
        · left
          simp [moveCommand.Run, hv, h1, h2, h3, relayedCount_defer, relayedCount,
            received_defer, received, consuming_defer, consuming]
      · left
        simp [moveCommand.Run, hv, h1, h2, relayedCount_defer, relayedCount, received_defer,
          received, consuming_defer, consuming]
    · left
      simp [moveCommand.Run, hv, h1, relayedCount, received, consuming]
  · left
    simp [moveCommand.Run, hv, relayedCount, received, consuming]

/-! ## The monitor rejects what the discipline forbids -/

/-- The monitor `ackDiscipline` is not vacuous: it rejects an acknowledgment
with no publish, one after a failed publish, one before the commit or after a
failed commit in transactional mode, one with another tag, one for a publish of
another message, and a second acknowledgment of the same delivery; it accepts
the two regular sequences. -/
theorem ackDiscipline_examples :
    let d := sampleDelivery 1
    let pub (e : Option GoError) := Call.publish "" "q2" true false (toPublishing d) e
    ackDiscipline false .nothing [.recv d, .ack 1 false none] = false ∧
    ackDiscipline false .nothing [.recv d, pub (some (.mk "x")), .ack 1 false none] = false ∧
    ackDiscipline true .nothing [.recv d, pub none, .ack 1 false none] = false ∧
    ackDiscipline true .nothing
      [.recv d, pub none, .txCommit (some (.mk "x")), .ack 1 false none] = false ∧
    ackDiscipline false .nothing [.recv d, pub none, .ack 2 false none] = false ∧
    ackDiscipline false .nothing
      [.recv d, .publish "" "q2" true false (toPublishing { d with Body := [] }) none,
        .ack 1 false none] = false ∧
    ackDiscipline false .nothing
      [.recv d, pub none, .ack 1 false none, .ack 1 false none] = false ∧
    ackDiscipline false .nothing [.recv d, pub none, .ack 1 false none] = true ∧
    ackDiscipline true .nothing
      [.recv d, pub none, .txCommit none, .ack 1 false none] = true := by
  decide

/-! ## The claims -/

/-- C1: in every run of `move`, the trace obeys the acknowledgment discipline:
an `Ack` is issued only for the delivery last received, only after the
`Publish` of that delivery has succeeded and, in transactional mode, after the
`TxCommit` following it has succeeded, and at most once for each delivery; the
tags acknowledged are, in order, tags of distinct received deliveries. -/
theorem ack_only_after_publish_and_commit (s : moveCommand)
    (consumeErr txErr : Option GoError) (limit : Int) (events : List Event) :
    ackDiscipline s.Tx .nothing (s.move consumeErr txErr limit events).trace = true ∧
      (ackTags (s.move consumeErr txErr limit events).trace).Sublist
        ((received (s.move consumeErr txErr limit events).trace).map Delivery.DeliveryTag) :=
  ⟨move_discipline s consumeErr txErr limit events,
    (move_trace s consumeErr txErr limit events).2.2.1⟩

/-- C9: in every run of `move`, the messages handed to `Publish` are, one for
one and in order, the deliveries taken from the source stream, which are an
initial segment of what the stream offers; every `Publish` goes to the
destination queue name with the mandatory flag set; and the published message
has each of its fourteen fields equal to the field of the consumed delivery. -/
theorem publishes_what_it_receives (s : moveCommand) (consumeErr txErr : Option GoError)
    (limit : Int) (events : List Event) :
    publishings (s.move consumeErr txErr limit events).trace =
        (received (s.move consumeErr txErr limit events).trace).map toPublishing ∧
      (∃ rest, received (s.move consumeErr txErr limit events).trace ++ rest =
        deliveries events) ∧
      publishesTo s.Destination.Queue (s.move consumeErr txErr limit events).trace = true ∧
      ∀ d : Delivery,
        (toPublishing d).Body = d.Body ∧ (toPublishing d).Headers = d.Headers ∧
        (toPublishing d).ContentType = d.ContentType ∧
        (toPublishing d).ContentEncoding = d.ContentEncoding ∧
        (toPublishing d).DeliveryMode = d.DeliveryMode ∧
        (toPublishing d).Priority = d.Priority ∧
        (toPublishing d).CorrelationId = d.CorrelationId ∧
        (toPublishing d).ReplyTo = d.ReplyTo ∧
        (toPublishing d).Expiration = d.Expiration ∧
        (toPublishing d).MessageId = d.MessageId ∧
        (toPublishing d).Timestamp = d.Timestamp ∧
        (toPublishing d).Type_ = d.Type_ ∧
        (toPublishing d).UserId = d.UserId ∧
        (toPublishing d).AppId = d.AppId := by
  obtain ⟨h1, h2, _, h4⟩ := move_trace s consumeErr txErr limit events
  exact ⟨h1, h4, h2, fun d => ⟨rfl, rfl, rfl, rfl, rfl, rfl, rfl, rfl, rfl, rfl, rfl, rfl,
    rfl, rfl⟩⟩

/-- C6: when the loop is still running after the choices `pre` and the next
delivery fails at `Publish`, or in transactional mode at `TxCommit`, `move`
returns an error at once: the trace is the one so far followed by the receive,
the publish (and the failed commit), with no `Ack` and nothing for any later
event; the counter is the one before that delivery, which is the number of
messages fully relayed so far (as a Go `int`). -/
theorem publish_or_commit_failure_aborts (s : moveCommand) (consumeErr txErr : Option GoError)
    (limit : Int) (pre post : List Event) (d : Delivery) (r : Replies)
    (hw : (s.move consumeErr txErr limit pre).outcome = .waiting) :
    (∀ e, r.publish = some e →
      s.move consumeErr txErr limit (pre ++ .msg d r :: post) =
        ⟨.returned (some e), (s.move consumeErr txErr limit pre).counter,
          (s.move consumeErr txErr limit pre).trace ++
            [.recv d,
              .publish "" s.Destination.Queue true false (toPublishing d) (some e)]⟩) ∧
    (∀ e, s.Tx = true → r.publish = none → r.commit = some e →
      s.move consumeErr txErr limit (pre ++ .msg d r :: post) =
        ⟨.returned (some (.wrapf e "Cannot commit producer transaction" [])),
          (s.move consumeErr txErr limit pre).counter,
          (s.move consumeErr txErr limit pre).trace ++
            [.recv d, .publish "" s.Destination.Queue true false (toPublishing d) none,
              .txCommit (some e)]⟩) ∧
    ((r.publish ≠ none ∨ (s.Tx = true ∧ r.commit ≠ none)) →
      ackTags (s.move consumeErr txErr limit (pre ++ .msg d r :: post)).trace =
          ackTags (s.move consumeErr txErr limit pre).trace ∧
        relayedCount (s.move consumeErr txErr limit (pre ++ .msg d r :: post)).trace =
          relayedCount (s.move consumeErr txErr limit pre).trace ∧
        publishings (s.move consumeErr txErr limit (pre ++ .msg d r :: post)).trace =
          publishings (s.move consumeErr txErr limit pre).trace ++ [toPublishing d]) ∧
    (s.move consumeErr txErr limit pre).counter =
      wrapInt (relayedCount (s.move consumeErr txErr limit pre).trace) ∧
    (relayedCount (s.move consumeErr txErr limit pre).trace < 2 ^ 63 →
      (s.move consumeErr txErr limit pre).counter =
        relayedCount (s.move consumeErr txErr limit pre).trace) := by
  have happ := move_append_of_waiting hw (.msg d r :: post)
  have hpub : ∀ e, r.publish = some e →
      relay s d r = ([.publish "" s.Destination.Queue true false (toPublishing d) (some e)],
        some e) := by
    intro e he
    simp [relay, he]
  have hcom : ∀ e, s.Tx = true → r.publish = none → r.commit = some e →
      relay s d r = ([.publish "" s.Destination.Queue true false (toPublishing d) none,
        .txCommit (some e)], some (.wrapf e "Cannot commit producer transaction" [])) := by
    intro e ht hp hc
    simp [relay, ht, hp, hc]
  have hP : ∀ e, r.publish = some e →
      s.move consumeErr txErr limit (pre ++ .msg d r :: post) =
        ⟨.returned (some e), (s.move consumeErr txErr limit pre).counter,
          (s.move consumeErr txErr limit pre).trace ++
            [.recv d,
              .publish "" s.Destination.Queue true false (toPublishing d) (some e)]⟩ := by
    intro e he
    have h2 : (relay s d r).2 = some e := by rw [hpub e he]
    rw [happ, consumeLoop_msg_fail h2, hpub e he]
    rfl
  have hC : ∀ e, s.Tx = true → r.publish = none → r.commit = some e →
      s.move consumeErr txErr limit (pre ++ .msg d r :: post) =
        ⟨.returned (some (.wrapf e "Cannot commit producer transaction" [])),
          (s.move consumeErr txErr limit pre).counter,
          (s.move consumeErr txErr limit pre).trace ++
            [.recv d, .publish "" s.Destination.Queue true false (toPublishing d) none,
              .txCommit (some e)]⟩ := by
    intro e ht hp hc
    have h2 : (relay s d r).2 = some (.wrapf e "Cannot commit producer transaction" []) := by
      rw [hcom e ht hp hc]
    rw [happ, consumeLoop_msg_fail h2, hcom e ht hp hc]
    rfl
  have hcw := move_counter_wrap s consumeErr txErr limit pre
  refine ⟨hP, hC, ?_, hcw, ?_⟩
  · intro hfail
    rcases hp : r.publish with _ | e
    · rcases hfail with hfail | ⟨ht, hc⟩
      · exact absurd hp hfail
      · obtain ⟨e, he⟩ := Option.ne_none_iff_exists'.mp hc
        rw [hC e ht hp he]
        simp [ackTags_append, relayedCount_append, publishings_append, ackTags, relayedCount,
          publishings]
    · rw [hP e hp]
      simp [ackTags_append, relayedCount_append, publishings_append, ackTags, relayedCount,
        publishings]
  · intro hlt
    rw [hcw]
    apply wrapInt_of_isInt64
    unfold IsInt64
    constructor
    · have : (0 : Int) ≤ relayedCount (s.move consumeErr txErr limit pre).trace :=
        Int.ofNat_nonneg _
      omega
    · exact_mod_cast hlt

/-- Witness for C6: after one relayed message a second delivery fails at
`TxCommit`; the run returns the wrapped commit error with the counter at 1, and
the third delivery is not touched. -/
theorem publish_or_commit_failure_aborts_witness :
    ((sampleCommand 5 true).move none none 5 [.msg (sampleDelivery 1) allOk]).outcome
        = .waiting ∧
      (sampleCommand 5 true).move none none 5
          ([.msg (sampleDelivery 1) allOk] ++
            .msg (sampleDelivery 2) (commitFails (.mk "boom")) ::
              [.msg (sampleDelivery 3) allOk]) =
        ⟨.returned (some (.wrapf (.mk "boom") "Cannot commit producer transaction" [])),
          ((sampleCommand 5 true).move none none 5 [.msg (sampleDelivery 1) allOk]).counter,
          ((sampleCommand 5 true).move none none 5 [.msg (sampleDelivery 1) allOk]).trace ++
            [.recv (sampleDelivery 2),
              .publish "" "q2" true false (toPublishing (sampleDelivery 2)) none,
              .txCommit (some (.mk "boom"))]⟩ ∧
      ((sampleCommand 5 true).move none none 5 [.msg (sampleDelivery 1) allOk]).counter = 1 :=
  ⟨by decide,
    (publish_or_commit_failure_aborts (sampleCommand 5 true) none none 5
      [.msg (sampleDelivery 1) allOk] [.msg (sampleDelivery 3) allOk] (sampleDelivery 2)
      (commitFails (.mk "boom")) (by decide)).2.1 (.mk "boom") rfl rfl rfl,
    by decide⟩

/-- C4: with validation, connections and queue inspection succeeded, `Run`
returns at once without error, without a `Consume` call and with nothing
relayed, exactly when the source queue is empty and the requested limit is at
least 0; in every other case it calls `move` with the requested limit when that
is above 0, with the depth of the source queue when it is 0, and with the
(negative) requested limit when it is below 0. -/
theorem run_short_circuit_iff (s : moveCommand) (env : Env) (cq pq : Queue)
    (hv : s.Validate = none) (h1 : env.consumerDial = none) (h2 : env.consumerChannel = none)
    (h3 : env.producerDial = none) (h4 : env.producerChannel = none)
    (hq1 : env.consumerQueue = .ok cq) (hq2 : env.producerQueue = .ok pq) :
    (cq.Messages = 0 ∧ s.Limit ≥ 0 →
      s.Run env =
        ⟨.returned none, 0,
          setupCalls s cq pq ++ depthLogs s cq pq ++
            [.logf .info "Consumer queue is empty" [], .close .producerChannel,
              .close .producerConn, .close .consumerChannel, .close .consumerConn]⟩ ∧
      relayedCount (s.Run env).trace = 0 ∧ received (s.Run env).trace = [] ∧
      publishings (s.Run env).trace = []) ∧
    (¬(cq.Messages = 0 ∧ s.Limit ≥ 0) →
      s.Run env =
        (Result.deferAll
          ((s.move env.consume env.tx
              (if s.Limit > 0 then s.Limit else if s.Limit = 0 then cq.Messages else s.Limit)
              env.events).after
            (depthLogs s cq pq ++
              [.logf .info "Moving messages from %s to %s with limit %d"
                [.str s.Source.Queue, .str s.Destination.Queue,
                  .int (if s.Limit > 0 then s.Limit
                    else if s.Limit = 0 then cq.Messages else s.Limit)]]))).after
          (setupCalls s cq pq)) ∧
    (consuming (s.Run env).trace = false ↔ (cq.Messages = 0 ∧ s.Limit ≥ 0)) := by
  have hrun := Run_of_setup_ok hv h1 h2 h3 h4 hq1 hq2
  have heff : (if s.Limit > 0 then s.Limit else if s.Limit = 0 then cq.Messages else s.Limit) =
      (if s.Limit = 0 then cq.Messages else s.Limit) := by
    split_ifs <;> first | rfl | omega
  have hshort : cq.Messages = 0 ∧ s.Limit ≥ 0 →
      s.Run env =
        ⟨.returned none, 0,
          setupCalls s cq pq ++ depthLogs s cq pq ++
            [.logf .info "Consumer queue is empty" [], .close .producerChannel,
              .close .producerConn, .close .consumerChannel, .close .consumerConn]⟩ := by
    intro hs
    rw [hrun]
    simp [runFrom, hs, Result.deferAll, Result.defer, Result.after]
  refine ⟨fun hs => ⟨hshort hs, ?_, ?_, ?_⟩, ?_, ?_⟩
  · rw [hshort hs]
    simp [relayedCount_append, relayedCount, setupCalls, depthLogs]
  · rw [hshort hs]
    simp [received_append, received, setupCalls, depthLogs]
  · rw [hshort hs]
    simp [publishings_append, publishings, setupCalls, depthLogs]
  · intro hs
    rw [hrun, heff]
    simp only [runFrom, hs, if_false]
  · constructor
    · intro hc
      by_contra hs
      rw [hrun] at hc
      simp [runFrom, hs, Result.deferAll, consuming_defer, consuming_append,
        consuming_move, consuming] at hc
    · intro hs
      rw [hshort hs]
      simp [consuming_append, consuming, setupCalls, depthLogs]

/-- Witness for C4: with limit -1 and an empty source queue `Run` does not
short-circuit: it issues the `Consume` call. -/
theorem run_short_circuit_iff_witness :
    (sampleCommand (-1) false).Validate = none ∧
      (consuming ((sampleCommand (-1) false).Run (sampleEnv 0 [])).trace = false ↔
        (({ Messages := 0 } : Queue).Messages = 0 ∧ (sampleCommand (-1) false).Limit ≥ 0)) :=
  ⟨by decide,
    (run_short_circuit_iff (sampleCommand (-1) false) (sampleEnv 0 []) { Messages := 0 }
      { Messages := 0 } (by decide) rfl rfl rfl rfl rfl rfl).2.2⟩

/-- C2: in a session started through `Run` with a requested limit of at
least 0 and a source queue of depth `D`, the counter and the number of
acknowledged messages are at most the effective limit (the requested limit when
above 0, otherwise `D`), whatever the `select` statement chooses; with `D = 0`
no delivery is taken from the source and nothing is relayed.  When the
deliveries taken from the source are at least as many as the effective limit
and no `Publish`, `TxCommit` or `Ack` fails, exactly the effective limit is
relayed, exactly that many deliveries were taken, and the run has ended.  In
terms of the choices of the `select` statement: with a non-empty source queue,
every set-up call succeeding and the first choices being as many relayed
deliveries as the effective limit, `Run` returns without error having relayed
exactly that many and consumed exactly those deliveries. -/
theorem run_relays_at_most_limit (s : moveCommand) (env : Env) (cq : Queue)
    (hlim : 0 ≤ s.Limit) (hmax : s.Limit < 2 ^ 63) (hq1 : env.consumerQueue = .ok cq)
    (hD : 0 ≤ cq.Messages) (hDmax : cq.Messages < 2 ^ 63) :
    (s.Run env).counter ≤ (if s.Limit > 0 then s.Limit else cq.Messages) ∧
    (relayedCount (s.Run env).trace : Int) ≤ (if s.Limit > 0 then s.Limit else cq.Messages) ∧
    (s.Run env).counter = relayedCount (s.Run env).trace ∧
    (cq.Messages = 0 →
      (s.Run env).counter = 0 ∧ relayedCount (s.Run env).trace = 0 ∧
        received (s.Run env).trace = [] ∧ consuming (s.Run env).trace = false) ∧
    ((if s.Limit > 0 then s.Limit else cq.Messages) ≤ (received (s.Run env).trace).length →
      relayCallsSucceed (s.Run env).trace = true →
      (relayedCount (s.Run env).trace : Int) = (if s.Limit > 0 then s.Limit else cq.Messages) ∧
        (s.Run env).counter = (if s.Limit > 0 then s.Limit else cq.Messages) ∧
        ((received (s.Run env).trace).length : Int) =
          (if s.Limit > 0 then s.Limit else cq.Messages) ∧
        (∃ err, (s.Run env).outcome = .returned err) ∧
        (0 < (if s.Limit > 0 then s.Limit else cq.Messages) →
          (s.Run env).outcome = .returned none)) ∧
    (∀ (good rest : List Event) (pq : Queue),
      0 < cq.Messages →
      s.Validate = none → env.consumerDial = none → env.consumerChannel = none →
      env.producerDial = none → env.producerChannel = none → env.producerQueue = .ok pq →
      env.consume = none → (s.Tx = true → env.tx = none) →
      env.events = good ++ rest →
      (good.length : Int) = (if s.Limit > 0 then s.Limit else cq.Messages) →
      (∀ e ∈ good, Event.relayed s.Tx e = true) →
      (s.Run env).outcome = .returned none ∧
        (s.Run env).counter = (if s.Limit > 0 then s.Limit else cq.Messages) ∧
        (relayedCount (s.Run env).trace : Int) =
          (if s.Limit > 0 then s.Limit else cq.Messages) ∧
        received (s.Run env).trace = deliveries good) := by
  have heff : (if s.Limit > 0 then s.Limit else cq.Messages) =
      (if s.Limit = 0 then cq.Messages else s.Limit) := by
    split_ifs <;> first | rfl | omega
  have hnn : 0 ≤ (if s.Limit = 0 then cq.Messages else s.Limit) := by
    split_ifs <;> omega
  have hm : (if s.Limit = 0 then cq.Messages else s.Limit) < 2 ^ 63 := by
    split_ifs <;> assumption
  rw [heff]
  rcases Run_shape s env with ⟨e1, e2, e3, e4, e5⟩ | ⟨cq2, pq2, hq, hs, hrun⟩
  · -- the run ended before the loop
    refine ⟨by rw [e1]; exact hnn, by rw [e2]; exact_mod_cast hnn, by rw [e1, e2]; rfl,
      fun _ => ⟨e1, e2, e3, e4⟩, ?_, ?_⟩
    · intro hle _
      rw [e3] at hle
      simp only [List.length_nil, Nat.cast_zero] at hle
      have hz : (if s.Limit = 0 then cq.Messages else s.Limit) = 0 := le_antisymm hle hnn
      rw [e1, e2, e3, hz]
      exact ⟨rfl, rfl, rfl, e5, fun h => absurd h (lt_irrefl 0)⟩
    · intro good rest pq hDpos hv h1 h2 h3 h4 hq2 hce hte hev hlen hall
      exfalso
      have hrun := Run_of_setup_ok hv h1 h2 h3 h4 hq1 hq2
      have hs : ¬(cq.Messages = 0 ∧ s.Limit ≥ 0) := fun h => by omega
      rw [hrun] at e4
      simp [runFrom, hs, Result.deferAll, consuming_defer, consuming_append, consuming_move,
        consuming] at e4
  · -- the run called `move`
    rw [hq1] at hq
    cases hq
    have hpos : 0 < (if s.Limit = 0 then cq.Messages else s.Limit) := by
      split_ifs with h0
      · by_contra hn
        exact hs ⟨by omega, by omega⟩
      · omega
    obtain ⟨w1, w2, w3, w4, w5⟩ := wrapped_move s cq pq2
      (.logf .info "Moving messages from %s to %s with limit %d"
        [.str s.Source.Queue, .str s.Destination.Queue,
          .int (if s.Limit = 0 then cq.Messages else s.Limit)]) ⟨_, _, _, rfl⟩
      (s.move env.consume env.tx (if s.Limit = 0 then cq.Messages else s.Limit) env.events)
    rw [← hrun] at w1 w2 w3 w4 w5
    obtain ⟨b1, b2⟩ := move_counter_bounded s env.consume env.tx hpos hm env.events
    obtain ⟨x1, x2⟩ := move_exact s env.consume env.tx hpos hm env.events
    rw [← w2, ← w3] at b1
    rw [← w2] at b2
    rw [← w5, ← w3, ← w4] at x1
    rw [← w3, ← w1] at x2
    refine ⟨b2, by rw [← b1]; exact b2, b1, ?_, ?_, ?_⟩
    · intro hz
      exact absurd ⟨hz, hlim⟩ hs
    · intro hle hsucc
      have hrc := x1 hsucc
      have heq : (relayedCount (s.Run env).trace : Int) =
          (if s.Limit = 0 then cq.Messages else s.Limit) := by
        have : (relayedCount (s.Run env).trace : Int) ≤
            (if s.Limit = 0 then cq.Messages else s.Limit) := by rw [← b1]; exact b2
        have h2 : ((received (s.Run env).trace).length : Int) =
            relayedCount (s.Run env).trace := by rw [hrc]
        omega
      refine ⟨heq, by rw [b1]; exact heq, by rw [← hrc]; exact heq, ⟨none, x2 heq⟩,
        fun _ => x2 heq⟩
    · intro good rest pq hDpos hv h1 h2 h3 h4 hq2 hce hte hev hlen hall
      have hne : good ≠ [] := by
        intro h
        rw [h] at hlen
        simp only [List.length_nil, Nat.cast_zero] at hlen
        rw [← hlen] at hpos
        exact absurd hpos (lt_irrefl 0)
      obtain ⟨r1, r2, r3, r4⟩ :=
        consumeLoop_relays_exactly s hm good rest 0 (le_refl 0) (by omega) hne hall
      have hmv : s.move env.consume env.tx (if s.Limit = 0 then cq.Messages else s.Limit)
          env.events =
          (consumeLoop s (if s.Limit = 0 then cq.Messages else s.Limit) 0
            (good ++ rest)).after (moveSetup s) := by
        rw [hce, hev, move_of_setup_ok hte]
      rw [hmv] at w1 w2 w3 w4
      refine ⟨by rw [w1]; simpa using r1, by rw [w2]; simpa using r2, ?_, ?_⟩
      · rw [w3]
        simp [relayedCount_append, relayedCount_moveSetup, r4]
        omega
      · rw [w4]
        simp [received_append, received_moveSetup, r3]

/-- Witness for C2: limit 3 on a source queue of depth 5 that delivers five
messages relays exactly 3 and consumes only the first three; limit 3 on a
source queue found empty takes no delivery and relays nothing. -/
theorem run_relays_at_most_limit_witness :
    (0 : Int) ≤ (sampleCommand 3 false).Limit ∧
      (0 : Int) < ({ Messages := 5 } : Queue).Messages ∧
      ((sampleCommand 3 false).Run (sampleEnv 5
        ([Event.msg (sampleDelivery 1) allOk, .msg (sampleDelivery 2) allOk,
          .msg (sampleDelivery 3) allOk] ++
          [Event.msg (sampleDelivery 4) allOk, .msg (sampleDelivery 5) allOk]))).outcome =
        .returned none ∧
      ((sampleCommand 3 false).Run (sampleEnv 5
        ([Event.msg (sampleDelivery 1) allOk, .msg (sampleDelivery 2) allOk,
          .msg (sampleDelivery 3) allOk] ++
          [Event.msg (sampleDelivery 4) allOk, .msg (sampleDelivery 5) allOk]))).counter = 3 ∧
      received ((sampleCommand 3 false).Run (sampleEnv 5
        ([Event.msg (sampleDelivery 1) allOk, .msg (sampleDelivery 2) allOk,
          .msg (sampleDelivery 3) allOk] ++
          [Event.msg (sampleDelivery 4) allOk, .msg (sampleDelivery 5) allOk]))).trace =
        [sampleDelivery 1, sampleDelivery 2, sampleDelivery 3] ∧
      relayedCount ((sampleCommand 3 false).Run (sampleEnv 0
        [Event.msg (sampleDelivery 1) allOk, .msg (sampleDelivery 2) allOk,
          .msg (sampleDelivery 3) allOk])).trace = 0 ∧
      received ((sampleCommand 3 false).Run (sampleEnv 0
        [Event.msg (sampleDelivery 1) allOk, .msg (sampleDelivery 2) allOk,
          .msg (sampleDelivery 3) allOk])).trace = [] ∧
      relayCallsSucceed ((sampleCommand 3 false).Run (sampleEnv 5
        ([Event.msg (sampleDelivery 1) allOk, .msg (sampleDelivery 2) allOk,
          .msg (sampleDelivery 3) allOk] ++
          [Event.msg (sampleDelivery 4) allOk, .msg (sampleDelivery 5) allOk]))).trace =
        true ∧
      (relayedCount ((sampleCommand 3 false).Run (sampleEnv 5
        ([Event.msg (sampleDelivery 1) allOk, .msg (sampleDelivery 2) allOk,
          .msg (sampleDelivery 3) allOk] ++
          [Event.msg (sampleDelivery 4) allOk, .msg (sampleDelivery 5) allOk]))).trace : Int) =
        (if (sampleCommand 3 false).Limit > 0 then (sampleCommand 3 false).Limit
          else ({ Messages := 5 } : Queue).Messages) := by
  have h := (run_relays_at_most_limit (sampleCommand 3 false) (sampleEnv 5
      ([Event.msg (sampleDelivery 1) allOk, .msg (sampleDelivery 2) allOk,
        .msg (sampleDelivery 3) allOk] ++
        [Event.msg (sampleDelivery 4) allOk, .msg (sampleDelivery 5) allOk])) { Messages := 5 }
      (by decide) (by decide) rfl (by decide) (by decide)).2.2.2.2.2
    [.msg (sampleDelivery 1) allOk, .msg (sampleDelivery 2) allOk,
      .msg (sampleDelivery 3) allOk]
    [.msg (sampleDelivery 4) allOk, .msg (sampleDelivery 5) allOk] { Messages := 0 }
    (by decide) (by decide) rfl rfl rfl rfl rfl rfl (fun _ => rfl) rfl (by decide) (by decide)
  have h0 := (run_relays_at_most_limit (sampleCommand 3 false) (sampleEnv 0
      [Event.msg (sampleDelivery 1) allOk, .msg (sampleDelivery 2) allOk,
        .msg (sampleDelivery 3) allOk]) { Messages := 0 }
      (by decide) (by decide) rfl (by decide) (by decide)).2.2.2.1 rfl
  have hd := (run_relays_at_most_limit (sampleCommand 3 false) (sampleEnv 5
      ([Event.msg (sampleDelivery 1) allOk, .msg (sampleDelivery 2) allOk,
        .msg (sampleDelivery 3) allOk] ++
        [Event.msg (sampleDelivery 4) allOk, .msg (sampleDelivery 5) allOk])) { Messages := 5 }
      (by decide) (by decide) rfl (by decide) (by decide)).2.2.2.2.1 (by decide) (by decide)
  exact ⟨by decide, by decide, h.1, h.2.1, h.2.2.2, h0.2.1, h0.2.2.1, by decide, hd.1⟩

/-- C3: `Validate` returns an error exactly when the source URI, the source
queue name, the destination URI or the destination queue name is empty, or the
two endpoints have the same URI and the same queue name; so with four non-empty
fields it succeeds as soon as the URIs differ or the queue names differ. -/
theorem validate_error_iff (s : moveCommand) :
    (s.Validate ≠ none ↔
      (s.Source.URI = "" ∨ s.Source.Queue = "" ∨ s.Destination.URI = "" ∨
        s.Destination.Queue = "" ∨
        (s.Source.URI = s.Destination.URI ∧ s.Source.Queue = s.Destination.Queue))) ∧
    ((s.Source.URI ≠ "" ∧ s.Source.Queue ≠ "" ∧ s.Destination.URI ≠ "" ∧
        s.Destination.Queue ≠ "" ∧
        (s.Source.URI ≠ s.Destination.URI ∨ s.Source.Queue ≠ s.Destination.Queue)) →
      s.Validate = none) := by
  unfold moveCommand.Validate
  constructor
  · split_ifs <;> simp_all
  · rintro ⟨h1, h2, h3, h4, h5⟩
    split_ifs <;> simp_all

/-- C5: `newMoveCommand` never fails; the destination URI is the raw
destination URI unless that is empty, in which case it is the raw source URI;
the source URI is the raw source URI unless that is empty, in which case it is
the raw destination URI; queue names, limit and transaction flag are copied.
With only a source URI and two distinct non-empty queue names the destination
gets the source's URI and the command passes `Validate`. -/
theorem newMoveCommand_resolves (f : Flags) :
    (newMoveCommand f).2 = none ∧
    (newMoveCommand f).1.Destination.URI = (if f.dstURI ≠ "" then f.dstURI else f.srcURI) ∧
    (newMoveCommand f).1.Source.URI = (if f.srcURI ≠ "" then f.srcURI else f.dstURI) ∧
    (newMoveCommand f).1.Source.Queue = f.srcQueue ∧
    (newMoveCommand f).1.Destination.Queue = f.dstQueue ∧
    (newMoveCommand f).1.Limit = f.limit ∧
    (newMoveCommand f).1.Tx = f.tx ∧
    (f.dstURI = "" → f.srcQueue ≠ f.dstQueue →
      (newMoveCommand f).1.Destination.URI = (newMoveCommand f).1.Source.URI ∧
      (newMoveCommand f).1.Source.URI = f.srcURI ∧
      (f.srcURI ≠ "" → f.srcQueue ≠ "" → f.dstQueue ≠ "" →
        (newMoveCommand f).1.Validate = none)) := by
  unfold newMoveCommand
  refine ⟨rfl, ?_, ?_, ?_, ?_, ?_, ?_, ?_⟩
  · by_cases hd : f.dstURI = "" <;> by_cases hs : f.srcURI = "" <;> simp [hd, hs]
  · by_cases hd : f.dstURI = "" <;> by_cases hs : f.srcURI = "" <;> simp [hd, hs]
  · by_cases hd : f.dstURI = "" <;> by_cases hs : f.srcURI = "" <;> simp [hd, hs]
  · by_cases hd : f.dstURI = "" <;> by_cases hs : f.srcURI = "" <;> simp [hd, hs]
  · by_cases hd : f.dstURI = "" <;> by_cases hs : f.srcURI = "" <;> simp [hd, hs]
  · by_cases hd : f.dstURI = "" <;> by_cases hs : f.srcURI = "" <;> simp [hd, hs]
  · intro hd hq
    by_cases hs : f.srcURI = ""
    · simp [hd, hs]
    · simp [hd, hs, moveCommand.Validate]
      intro h1 h2
      simp [h1, h2, hq]

/-- C7: when the one-second timer is the case selected, a loop with a limit
of at least 0 returns without error and with the counter unchanged, whatever
the counter is; a loop with a negative limit logs the progress and goes on with
the same counter.  So with a negative limit a run of `move` over relayed
messages and timer events only never returns, and a run that returns without
error has selected `ctx.Done()`, after relayed messages and timer events only.
With limit 2, one message and then the timer end the run with counter 1. -/
theorem idle_timeout_policy (s : moveCommand) (consumeErr txErr : Option GoError)
    (limit c : Int) (rest : List Event) :
    (0 ≤ limit →
      consumeLoop s limit c (.timeout :: rest) =
        ⟨.returned none, c, [.timeAfter, .logf .info "Moved %d messages " [.int c]]⟩) ∧
    (limit < 0 →
      consumeLoop s limit c (.timeout :: rest) =
        (consumeLoop s limit c rest).after
          [.timeAfter, .logf .info "Moved so far %d messages " [.int c]]) ∧
    (limit < 0 → (∀ e ∈ rest, e = .timeout ∨ Event.relayed s.Tx e = true) →
      (s.move consumeErr txErr limit rest).outcome ≠ .returned none) ∧
    (limit < 0 → (∀ e ∈ rest, e = .timeout ∨ Event.relayed s.Tx e = true) →
      (consumeLoop s limit c rest).outcome = .waiting) ∧
    (limit < 0 → (s.move consumeErr txErr limit rest).outcome = .returned none →
      ∃ pre post, rest = pre ++ .done :: post ∧
        ∀ e ∈ pre, e = .timeout ∨ Event.relayed s.Tx e = true) ∧
    ((sampleCommand 2 false).move none none 2
        [.msg (sampleDelivery 1) allOk, .timeout]).outcome = .returned none ∧
    ((sampleCommand 2 false).move none none 2
        [.msg (sampleDelivery 1) allOk, .timeout]).counter = 1 := by
  have hloop : (s.move consumeErr txErr limit rest).outcome = .returned none →
      (consumeLoop s limit 0 rest).outcome = .returned none := by
    intro hret
    unfold moveCommand.move at hret
    rcases consumeErr with _ | e1
    · by_cases ht : s.Tx = true
      · rcases txErr with _ | e2
        · simpa [ht] using hret
        · simp [ht] at hret
      · simpa [ht] using hret
    · simp at hret
  refine ⟨fun h => consumeLoop_timeout_bounded h s c rest,
    fun h => consumeLoop_timeout_unlimited (by omega) s c rest, ?_,
    fun h hall => consumeLoop_unlimited_waiting s h rest c hall, ?_, by decide, by decide⟩
  · intro hl hall hret
    have hw := consumeLoop_unlimited_waiting s hl rest 0 hall
    rw [hloop hret] at hw
    exact absurd hw (by simp)
  · intro hl hret
    exact consumeLoop_unlimited_returned s hl rest 0 (hloop hret)

/-- C8: when `ctx.Done()` is the case selected, the loop returns without
error at once, whatever the limit and the counter: nothing is published,
committed or acknowledged any more, and later events are not consumed.  In a
run of `move` that was still running after the choices `pre`, the final counter
is the counter before the cancellation, it is the number of acknowledged
messages of the trace (as a Go `int`), and never more than that number. -/
theorem cancellation_stops (s : moveCommand) (consumeErr txErr : Option GoError)
    (limit : Int) (pre post : List Event)
    (hw : (s.move consumeErr txErr limit pre).outcome = .waiting) :
    (∀ c : Int, consumeLoop s limit c (.done :: post) =
      ⟨.returned none, c,
        [.ctxDone, .logf .warn "Move interrupted after %d messages " [.int c],
          .logf .info "Moved %d messages " [.int c]]⟩) ∧
    s.move consumeErr txErr limit (pre ++ .done :: post) =
      ⟨.returned none, (s.move consumeErr txErr limit pre).counter,
        (s.move consumeErr txErr limit pre).trace ++
          [.ctxDone,
            .logf .warn "Move interrupted after %d messages "
              [.int (s.move consumeErr txErr limit pre).counter],
            .logf .info "Moved %d messages "
              [.int (s.move consumeErr txErr limit pre).counter]]⟩ ∧
    publishings (s.move consumeErr txErr limit (pre ++ .done :: post)).trace =
      publishings (s.move consumeErr txErr limit pre).trace ∧
    ackTags (s.move consumeErr txErr limit (pre ++ .done :: post)).trace =
      ackTags (s.move consumeErr txErr limit pre).trace ∧
    relayedCount (s.move consumeErr txErr limit (pre ++ .done :: post)).trace =
      relayedCount (s.move consumeErr txErr limit pre).trace ∧
    (s.move consumeErr txErr limit (pre ++ .done :: post)).counter =
      wrapInt (relayedCount (s.move consumeErr txErr limit (pre ++ .done :: post)).trace) ∧
    (s.move consumeErr txErr limit (pre ++ .done :: post)).counter ≤
      relayedCount (s.move consumeErr txErr limit (pre ++ .done :: post)).trace ∧
    (relayedCount (s.move consumeErr txErr limit (pre ++ .done :: post)).trace < 2 ^ 63 →
      (s.move consumeErr txErr limit (pre ++ .done :: post)).counter =
        relayedCount (s.move consumeErr txErr limit (pre ++ .done :: post)).trace) := by
  have happ := move_append_of_waiting hw (.done :: post)
  rw [consumeLoop_done] at happ
  have hcw := move_counter_wrap s consumeErr txErr limit (pre ++ .done :: post)
  have hnn : (0 : Int) ≤
      relayedCount (s.move consumeErr txErr limit (pre ++ .done :: post)).trace :=
    Int.ofNat_nonneg _
  refine ⟨fun c => consumeLoop_done s limit c post, happ, ?_, ?_, ?_, hcw, ?_, ?_⟩
  · rw [happ]; simp [Result.after, publishings_append, publishings, logMoved]
  · rw [happ]; simp [Result.after, ackTags_append, ackTags, logMoved]
  · rw [happ]; simp [Result.after, relayedCount_append, relayedCount, logMoved]
  · rw [hcw]; exact wrapInt_le_of_nonneg hnn
  · intro hlt
    rw [hcw]
    apply wrapInt_of_isInt64
    unfold IsInt64
    constructor
    · omega
    · exact_mod_cast hlt

/-- Witness for C8: in unlimited mode, one relayed message and then the
cancellation end the run without error with counter 1; the delivery offered
after the cancellation is not touched. -/
theorem cancellation_stops_witness :
    ((sampleCommand (-1) false).move none none (-1)
        [.msg (sampleDelivery 1) allOk]).outcome = .waiting ∧
      (sampleCommand (-1) false).move none none (-1)
          ([.msg (sampleDelivery 1) allOk] ++ .done :: [.msg (sampleDelivery 2) allOk]) =
        ⟨.returned none,
          ((sampleCommand (-1) false).move none none (-1)
            [.msg (sampleDelivery 1) allOk]).counter,
          ((sampleCommand (-1) false).move none none (-1)
            [.msg (sampleDelivery 1) allOk]).trace ++
            [.ctxDone,
              .logf .warn "Move interrupted after %d messages "
                [.int ((sampleCommand (-1) false).move none none (-1)
                  [.msg (sampleDelivery 1) allOk]).counter],
              .logf .info "Moved %d messages "
                [.int ((sampleCommand (-1) false).move none none (-1)
                  [.msg (sampleDelivery 1) allOk]).counter]]⟩ ∧
      ((sampleCommand (-1) false).move none none (-1)
        [.msg (sampleDelivery 1) allOk]).counter = 1 :=
  ⟨by decide,
    (cancellation_stops (sampleCommand (-1) false) none none (-1)
      [.msg (sampleDelivery 1) allOk] [.msg (sampleDelivery 2) allOk] (by decide)).2.1,
    by decide⟩

/-- C10, as the code has it: when the loop is still running after the choices
`pre` and the next delivery fails at `TxCommit` (transactional mode) or at
`Ack`, the error `move` returns is the library's error wrapped with the message
of the step that failed, "Cannot commit producer transaction" or "Cannot ack
consumer message", with no argument; it is the same error after any other
choices `pre'` that leave the loop running, whatever was relayed before: the
error names the step and does not report a count. -/
theorem commit_or_ack_failure_names_step (s : moveCommand)
    (consumeErr txErr : Option GoError) (limit : Int) (pre post pre' post' : List Event)
    (d : Delivery) (r : Replies)
    (hw : (s.move consumeErr txErr limit pre).outcome = .waiting)
    (hw' : (s.move consumeErr txErr limit pre').outcome = .waiting) :
    (∀ e, s.Tx = true → r.publish = none → r.commit = some e →
      (s.move consumeErr txErr limit (pre ++ .msg d r :: post)).outcome =
        .returned (some (.wrapf e "Cannot commit producer transaction" []))) ∧
    (∀ e, r.publish = none → (s.Tx = true → r.commit = none) → r.ack = some e →
      (s.move consumeErr txErr limit (pre ++ .msg d r :: post)).outcome =
        .returned (some (.wrapf e "Cannot ack consumer message" []))) ∧
    (((s.Tx = true ∧ r.publish = none ∧ r.commit ≠ none) ∨
        (r.publish = none ∧ (s.Tx = true → r.commit = none) ∧ r.ack ≠ none)) →
      (s.move consumeErr txErr limit (pre ++ .msg d r :: post)).outcome =
        (s.move consumeErr txErr limit (pre' ++ .msg d r :: post')).outcome) := by
  have hcommit : ∀ (p q : List Event), (s.move consumeErr txErr limit p).outcome = .waiting →
      ∀ e, s.Tx = true → r.publish = none → r.commit = some e →
      (s.move consumeErr txErr limit (p ++ .msg d r :: q)).outcome =
        .returned (some (.wrapf e "Cannot commit producer transaction" [])) := by
    intro p q hp e ht hpub hc
    have h2 : (relay s d r).2 = some (.wrapf e "Cannot commit producer transaction" []) := by
      simp [relay, ht, hpub, hc]
    rw [move_append_of_waiting hp (.msg d r :: q), consumeLoop_msg_fail h2]
    rfl
  have hack : ∀ (p q : List Event), (s.move consumeErr txErr limit p).outcome = .waiting →
      ∀ e, r.publish = none → (s.Tx = true → r.commit = none) → r.ack = some e →
      (s.move consumeErr txErr limit (p ++ .msg d r :: q)).outcome =
        .returned (some (.wrapf e "Cannot ack consumer message" [])) := by
    intro p q hp e hpub hc ha
    have h2 : (relay s d r).2 = some (.wrapf e "Cannot ack consumer message" []) := by
      by_cases ht : s.Tx = true
      · simp [relay, ht, hpub, hc ht, ha]
      · simp [relay, ht, hpub, ha]
    rw [move_append_of_waiting hp (.msg d r :: q), consumeLoop_msg_fail h2]
    rfl
  refine ⟨hcommit pre post hw, hack pre post hw, ?_⟩
  rintro (⟨ht, hpub, hc⟩ | ⟨hpub, hc, ha⟩)
  · obtain ⟨e, he⟩ := Option.ne_none_iff_exists'.mp hc
    rw [hcommit pre post hw e ht hpub he, hcommit pre' post' hw' e ht hpub he]
  · obtain ⟨e, he⟩ := Option.ne_none_iff_exists'.mp ha
    rw [hack pre post hw e hpub hc he, hack pre' post' hw' e hpub hc he]

/-- Witness for C10, as the code has it: after one relayed message the acknowledgment
of the second delivery fails; the error returned is the library's error wrapped
with "Cannot ack consumer message", the same as when the first delivery fails
so. -/
theorem commit_or_ack_failure_names_step_witness :
    ((sampleCommand 5 false).move none none 5 [.msg (sampleDelivery 1) allOk]).outcome
        = .waiting ∧
      ((sampleCommand 5 false).move none none 5 []).outcome = .waiting ∧
      ((sampleCommand 5 false).move none none 5
          ([.msg (sampleDelivery 1) allOk] ++
            .msg (sampleDelivery 2) (ackFails (.mk "boom")) :: [])).outcome =
        .returned (some (.wrapf (.mk "boom") "Cannot ack consumer message" [])) ∧
      ((sampleCommand 5 false).move none none 5
          ([.msg (sampleDelivery 1) allOk] ++
            .msg (sampleDelivery 2) (ackFails (.mk "boom")) :: [])).outcome =
        ((sampleCommand 5 false).move none none 5
          ([] ++ .msg (sampleDelivery 2) (ackFails (.mk "boom")) :: [])).outcome :=
  ⟨by decide, by decide,
    (commit_or_ack_failure_names_step (sampleCommand 5 false) none none 5
      [.msg (sampleDelivery 1) allOk] [] [] [] (sampleDelivery 2)
      (ackFails (.mk "boom")) (by decide) (by decide)).2.1 (.mk "boom") rfl
      (by decide) rfl,
    (commit_or_ack_failure_names_step (sampleCommand 5 false) none none 5
      [.msg (sampleDelivery 1) allOk] [] [] [] (sampleDelivery 2)
      (ackFails (.mk "boom")) (by decide) (by decide)).2.2
      (Or.inr ⟨rfl, by decide, by decide⟩)⟩

/-- C10 fails as stated: an acknowledgment that fails with the library error
"boom" makes `move` return the same error value whether no message or one
message was relayed before, so the error does not report the count; no function
of the returned error gives the number of messages relayed.  A failed `Publish`
returns the library's error as it is, with no step message. -/
theorem relay_error_omits_count :
    ((sampleCommand 5 false).move none none 5
        [.msg (sampleDelivery 1) (ackFails (.mk "boom"))]).outcome =
      .returned (some (.wrapf (.mk "boom") "Cannot ack consumer message" [])) ∧
    ((sampleCommand 5 false).move none none 5
        [.msg (sampleDelivery 1) allOk,
          .msg (sampleDelivery 2) (ackFails (.mk "boom"))]).outcome =
      .returned (some (.wrapf (.mk "boom") "Cannot ack consumer message" [])) ∧
    ((sampleCommand 5 false).move none none 5
        [.msg (sampleDelivery 1) (ackFails (.mk "boom"))]).counter = 0 ∧
    relayedCount ((sampleCommand 5 false).move none none 5
        [.msg (sampleDelivery 1) (ackFails (.mk "boom"))]).trace = 0 ∧
    ((sampleCommand 5 false).move none none 5
        [.msg (sampleDelivery 1) allOk,
          .msg (sampleDelivery 2) (ackFails (.mk "boom"))]).counter = 1 ∧
    relayedCount ((sampleCommand 5 false).move none none 5
        [.msg (sampleDelivery 1) allOk,
          .msg (sampleDelivery 2) (ackFails (.mk "boom"))]).trace = 1 ∧
    ((sampleCommand 5 false).move none none 5
        [.msg (sampleDelivery 1) (publishFails (.mk "boom"))]).outcome =
      .returned (some (.mk "boom")) ∧
    ¬ ∃ count : GoError → Nat, ∀ (events : List Event) (err : GoError),
      ((sampleCommand 5 false).move none none 5 events).outcome = .returned (some err) →
        count err = relayedCount ((sampleCommand 5 false).move none none 5 events).trace := by
  refine ⟨by decide, by decide, by decide, by decide, by decide, by decide, by decide, ?_⟩
  rintro ⟨count, h⟩
  have h0 := h [.msg (sampleDelivery 1) (ackFails (.mk "boom"))]
    (.wrapf (.mk "boom") "Cannot ack consumer message" []) (by decide)
  have h1 := h [.msg (sampleDelivery 1) allOk,
    .msg (sampleDelivery 2) (ackFails (.mk "boom"))]
    (.wrapf (.mk "boom") "Cannot ack consumer message" []) (by decide)
  have e0 : relayedCount ((sampleCommand 5 false).move none none 5
      [.msg (sampleDelivery 1) (ackFails (.mk "boom"))]).trace = 0 := by
    decide
  have e1 : relayedCount ((sampleCommand 5 false).move none none 5
      [.msg (sampleDelivery 1) allOk,
        .msg (sampleDelivery 2) (ackFails (.mk "boom"))]).trace = 1 := by
    decide
  rw [e0] at h0
  rw [e1] at h1
  rw [h0] at h1
  exact absurd h1 (by decide)

end RabbitmqMv
